import Mathlib

/-!
Verification of the sidre core of the axom repository: the DataStore
buffer registry (slot vector plus free-id stack), the View mode state
machine, Buffer reallocation, the save/load serialization round trip,
and the Shroud C/Fortran string-copy helper.

Code that ships in the repository (the inline bodies of
`DataStore::getNumBuffers` and `DataStore::hasBuffer` in DataStore.hpp, and
`ShroudStrCopy` / the `SIDRE_View_*` wrappers in wrapView.cpp) is embedded
directly from the source.  The bodies of the remaining DataStore / Buffer /
View member functions are not part of the repository snapshot (only their
declarations and callers are), so those operations are modelled from the
specification, as flagged in each doc comment.
-/

namespace Sidre

/-! ## ShroudStrCopy (wrapView.cpp, lines 24-43)

Bytes are modelled as `Nat`; the blank character `' '` is byte 32 and NUL is
byte 0.  A C string pointer is `Option (List Nat)`: `none` is the NULL
pointer.  The destination buffer is represented by its length `ndest`
together with the list of bytes the function writes into it. -/

/-- `std::strlen`: number of bytes before the first NUL byte. -/
def strlenBytes (s : List Nat) : Nat :=
  (s.takeWhile (fun b => b ≠ 0)).length

/-- Embedding of `ShroudStrCopy(char *dest, int ndest, const char *src, int nsrc)`
from wrapView.cpp: copy `src` into `dest`, blank fill to `ndest` characters,
truncate if `dest` is too short, never NUL terminate.  The returned list is
the full contents written to `dest` (always exactly `ndest` bytes). -/
def ShroudStrCopy (ndest : Nat) (src : Option (List Nat)) (nsrc : Int) : List Nat :=
  match src with
  | none => List.replicate ndest 32
  | some s =>
    let n : Nat := if nsrc < 0 then strlenBytes s else nsrc.toNat
    let nm : Nat := if n < ndest then n else ndest
    s.take nm ++ List.replicate (ndest - nm) 32

/-- Embedding of `SIDRE_View_get_name_bufferify` (wrapView.cpp, lines 67-82):
the view's name is copied into the caller's buffer of length `ndest` via
`ShroudStrCopy`; an empty name is passed as the NULL pointer. -/
def SIDRE_View_get_name_bufferify (name : List Nat) (ndest : Nat) : List Nat :=
  if name = [] then ShroudStrCopy ndest none 0
  else ShroudStrCopy ndest (some name) (name.length : Int)

example : ShroudStrCopy 5 (some [65, 66, 67]) 3 = [65, 66, 67, 32, 32] := by decide

example : ShroudStrCopy 2 (some [65, 66, 67]) 3 = [65, 66] := by decide

example : ShroudStrCopy 3 none 0 = [32, 32, 32] := by decide

example : ShroudStrCopy 4 (some [65, 66, 0, 67]) (-1) = [65, 66, 32, 32] := by decide

/-! ## Buffers

`DataBuffer` bodies are not in the repository snapshot; the Buffer record
and its operations are modelled from the specification (spec §4.1). -/

/-- Modelled from the spec: a Buffer is an allocation unit with a declared
element type tag and element count, whose data pointer is non-null iff it is
allocated.  Allocated data is the list of element values. -/
structure BufModel where
  elemType : Nat
  numElems : Nat
  data : Option (List Int)
  deriving DecidableEq, Repr

/-- A fresh, undescribed, unallocated Buffer as produced by
`DataStore::createBuffer()`. -/
def BufModel.fresh : BufModel := ⟨0, 0, none⟩

/-- Modelled from the spec: `Buffer::reallocate(newNumElements)` resizes an
allocated Buffer, preserving existing element values up to `min(old,new)`
count (new trailing elements are zero-initialised in the model), and fails
(returns `none`) if the Buffer was never allocated. -/
def BufModel.reallocate (b : BufModel) (newNum : Nat) : Option BufModel :=
  match b.data with
  | none => none
  | some d =>
    some { b with numElems := newNum,
                  data := some (d.take newNum ++ List.replicate (newNum - d.length) 0) }

/-! ## Views

The `View` member function bodies are likewise missing from the snapshot
(wrapView.cpp only forwards to them), so the View state machine is modelled
from the specification (spec §4.2 and its design note): the content is a
tagged variant over empty / described / buffer-attached / external / scalar /
string / opaque. -/

/-- Modelled from the spec: the content of a View.  `bufferAttached` carries
the attached Buffer's id, the optional data description (type tag, element
count) and the applied flag; `external` carries the external pointer, its
description and the applied flag; `opaque` is an external pointer with no
description. -/
inductive ViewContent where
  | empty : ViewContent
  | described (elemType numElems : Nat) : ViewContent
  | bufferAttached (bufId : Nat) (desc : Option (Nat × Nat)) (applied : Bool) : ViewContent
  | external (ptr : Nat) (elemType numElems : Nat) (applied : Bool) : ViewContent
  | scalar (value : Int) : ViewContent
  | string (value : String) : ViewContent
  | opaqueHandle (ptr : Nat) : ViewContent
  deriving DecidableEq, Repr

/-- A View record: its name (unique among sibling views) and its content. -/
structure ViewRec where
  name : String
  content : ViewContent
  deriving DecidableEq, Repr

namespace ViewContent

/-- `View::hasBuffer()`: the View holds a Buffer reference. -/
def hasBuffer : ViewContent → Bool
  | bufferAttached _ _ _ => true
  | _ => false

/-- `View::isExternal()`: the View is in EXTERNAL mode. -/
def isExternal : ViewContent → Bool
  | external _ _ _ _ => true
  | _ => false

/-- `View::isScalar()`: the View holds an inline scalar. -/
def isScalar : ViewContent → Bool
  | scalar _ => true
  | _ => false

/-- `View::isString()`: the View holds an inline string. -/
def isString : ViewContent → Bool
  | string _ => true
  | _ => false

/-- `View::isOpaque()`: the View holds an uninterpreted pointer. -/
def isOpaque : ViewContent → Bool
  | opaqueHandle _ => true
  | _ => false

/-- `View::isEmpty()`: the View has no description and no content. -/
def isEmpty : ViewContent → Bool
  | empty => true
  | _ => false

/-- `View::isDescribed()`: the View carries a data description
(type tag and element count).  Scalar and string content is self-describing;
an opaque pointer is uninterpreted, hence undescribed. -/
def isDescribed : ViewContent → Bool
  | described _ _ => true
  | bufferAttached _ d _ => d.isSome
  | external _ _ _ _ => true
  | scalar _ => true
  | string _ => true
  | _ => false

/-- `View::isApplied()`: the shape description has been committed against
the backing (Buffer or external) memory extent. -/
def isApplied : ViewContent → Bool
  | bufferAttached _ _ a => a
  | external _ _ _ a => a
  | _ => false

/-- The Buffer reference held by the View, if any. -/
def bufRef : ViewContent → Option Nat
  | bufferAttached b _ _ => some b
  | _ => none

/-- `View::getVoidPtr()` on the externally-backed modes: returns the external
pointer for EXTERNAL and OPAQUE Views, `none` otherwise (Buffer-backed data
addresses are not modelled). -/
def getVoidPtr : ViewContent → Option Nat
  | external p _ _ _ => some p
  | opaqueHandle p => some p
  | _ => none

/-- Number of true predicates among the five content modes
`hasBuffer, isExternal, isScalar, isString, isOpaque`. -/
def modeCount (c : ViewContent) : Nat :=
  (if c.hasBuffer then 1 else 0) + (if c.isExternal then 1 else 0) +
  (if c.isScalar then 1 else 0) + (if c.isString then 1 else 0) +
  (if c.isOpaque then 1 else 0)

end ViewContent

/-! ## DataStore

The state mirrors DataStore.hpp (part_007): `m_data_buffers` is the slot
vector (`std::vector<DataBuffer*>`, a null slot modelled as `none`) and
`m_free_buffer_ids` is the stack of recyclable ids (`std::stack<IndexType>`,
top of stack = head of list).  The flat list of all live Views stands in for
the Views reachable through the Group tree. -/

structure DataStore where
  data_buffers : List (Option BufModel)
  free_buffer_ids : List Nat
  views : List ViewRec
  deriving DecidableEq, Repr

namespace DataStore

/-- The freshly constructed DataStore: no buffers, no free ids, no views. -/
def init : DataStore := ⟨[], [], []⟩

/-- Embedding of the inline body of `DataStore::getNumBuffers` in
DataStore.hpp: `m_data_buffers.size() - m_free_buffer_ids.size()`
(`size_t` arithmetic; `Nat` subtraction agrees as long as the free list is
no longer than the slot vector). -/
def getNumBuffers (S : DataStore) : Nat :=
  S.data_buffers.length - S.free_buffer_ids.length

/-- Embedding of the inline body of `DataStore::hasBuffer(IndexType idx)` in
DataStore.hpp: `0 <= idx && (unsigned)idx < m_data_buffers.size() &&
m_data_buffers[idx] != ATK_NULLPTR`. -/
def hasBuffer (S : DataStore) (idx : Int) : Bool :=
  0 ≤ idx && idx.toNat < S.data_buffers.length &&
    (S.data_buffers.getD idx.toNat none).isSome

/-- Internal form of `hasBuffer` on a natural-number slot id. -/
def slotLive (S : DataStore) (id : Nat) : Bool :=
  (S.data_buffers.getD id none).isSome

/-- Modelled from the spec: `DataStore::getBuffer(idx)` returns the Buffer at
`idx`, or the not-found indicator (`none`, i.e. `ATK_NULLPTR`) if the slot is
empty or out of range. -/
def getBuffer (S : DataStore) (idx : Int) : Option BufModel :=
  if S.hasBuffer idx then S.data_buffers.getD idx.toNat none else none

/-- Modelled from the spec: the slot-allocation step shared by
`DataStore::createBuffer` and View allocation: the new Buffer is assigned an
id popped from the free list when one is available, otherwise the next
sequential id (the slot vector grows by one).  Returns the new state and the
assigned id. -/
def allocSlot (S : DataStore) (b : BufModel) : DataStore × Nat :=
  match S.free_buffer_ids with
  | [] => ({ S with data_buffers := S.data_buffers ++ [some b] }, S.data_buffers.length)
  | id :: rest =>
    ({ S with data_buffers := S.data_buffers.set id (some b),
              free_buffer_ids := rest }, id)

/-- Modelled from the spec: `DataStore::createBuffer()` creates an
undescribed, unallocated Buffer at a newly assigned id. -/
def createBuffer (S : DataStore) : DataStore × Nat :=
  S.allocSlot BufModel.fresh

/-- Modelled from the spec: `DataStore::createBuffer(type, num_elems)`
creates a described (but unallocated) Buffer at a newly assigned id. -/
def createBufferTyped (S : DataStore) (t n : Nat) : DataStore × Nat :=
  S.allocSlot ⟨t, n, none⟩

/-- Modelled from the spec: detaching a Buffer from a View (the View side of
`DataStore::destroyBuffer`): a View attached to slot `id` loses its data
binding and reverts toward DESCRIBED / un-applied; other Views are
untouched. -/
def detachFrom (id : Nat) (v : ViewRec) : ViewRec :=
  match v.content with
  | .bufferAttached b d _ =>
    if b = id then
      { v with content := match d with
                          | some (t, n) => .described t n
                          | none => .empty }
    else v
  | _ => v

/-- Modelled from the spec: `DataStore::destroyBuffer(idx)` detaches the
Buffer from every View attached to it, frees its memory (the slot becomes
null) and pushes its id onto the free list; a dead index is ignored. -/
def destroyBuffer (S : DataStore) (id : Nat) : DataStore :=
  if S.slotLive id then
    { data_buffers := S.data_buffers.set id none,
      free_buffer_ids := id :: S.free_buffer_ids,
      views := S.views.map (detachFrom id) }
  else S

/-- Modelled from the spec: `DataStore::destroyAllBuffers()` destroys the
Buffer at every slot in turn. -/
def destroyAllBuffers (S : DataStore) : DataStore :=
  (List.range S.data_buffers.length).foldl destroyBuffer S

/-- Modelled from the spec: `Group::createView(name)` appends an EMPTY View;
it fails (state unchanged) if a sibling View already has that name. -/
def createView (S : DataStore) (name : String) : DataStore :=
  if S.views.all (fun v => v.name ≠ name) then
    { S with views := S.views ++ [⟨name, .empty⟩] }
  else S

/-- Modelled from the spec: `Group::createView(name, type, num_elems)`
appends a DESCRIBED View (same name-collision failure). -/
def createViewDescribed (S : DataStore) (name : String) (t n : Nat) : DataStore :=
  if S.views.all (fun v => v.name ≠ name) then
    { S with views := S.views ++ [⟨name, .described t n⟩] }
  else S

/-- Modelled from the spec: `Group::destroyView`: removes the View at
position `i` from the store (its Buffer, if any, is merely detached from it,
never deleted). -/
def destroyView (S : DataStore) (i : Nat) : DataStore :=
  { S with views := S.views.eraseIdx i }

/-- Replace the content of the View at position `i`. -/
def setViewContent (S : DataStore) (i : Nat) (c : ViewContent) : DataStore :=
  match S.views.getD i ⟨"", .empty⟩ with
  | v => { S with views := S.views.set i { v with content := c } }

/-- The content of the View at position `i` (EMPTY if out of range). -/
def viewContent (S : DataStore) (i : Nat) : ViewContent :=
  (S.views.getD i ⟨"", .empty⟩).content

/-- `Buffer::getNumViews()`: number of Views currently attached to the
Buffer at slot `id` (attachment is derived from the View contents). -/
def numAttachedViews (S : DataStore) (id : Nat) : Nat :=
  (S.views.filter (fun v => v.content.bufRef = some id)).length

/-- Modelled from the spec: `View::attachBuffer(buffer)` — valid only from
EMPTY or DESCRIBED and only for a live Buffer slot; binds the View to that
Buffer; any other starting state is a contract violation that leaves the
state unchanged. -/
def attachBuffer (S : DataStore) (i : Nat) (b : Nat) : DataStore :=
  if S.slotLive b then
    match S.viewContent i with
    | .empty => S.setViewContent i (.bufferAttached b none false)
    | .described t n => S.setViewContent i (.bufferAttached b (some (t, n)) false)
    | _ => S
  else S

/-- Modelled from the spec: `View::allocate()` — valid from DESCRIBED: a new
allocated Buffer is created in the owning DataStore and attached; with an
attached but unallocated Buffer, that Buffer is described from the View and
allocated.  EMPTY (no inline type), EXTERNAL, SCALAR, STRING and OPAQUE
Views fail with a state-contract violation: the state is unchanged. -/
def allocateView (S : DataStore) (i : Nat) : DataStore :=
  match S.viewContent i with
  | .described t n =>
    let p := S.allocSlot ⟨t, n, some (List.replicate n 0)⟩
    p.1.setViewContent i (.bufferAttached p.2 (some (t, n)) false)
  | .bufferAttached b (some (t, n)) _ =>
    match S.data_buffers.getD b none with
    | some buf =>
      if buf.data = none then
        { S with data_buffers :=
            S.data_buffers.set b (some ⟨t, n, some (List.replicate n 0)⟩) }
      else S
    | none => S
  | _ => S

/-- Modelled from the spec: `View::allocate(type, num_elems)` — additionally
valid from EMPTY (the inline type and count describe the View first).  The
same terminal modes fail with the state unchanged. -/
def allocateViewTyped (S : DataStore) (i : Nat) (t n : Nat) : DataStore :=
  match S.viewContent i with
  | .empty =>
    let p := S.allocSlot ⟨t, n, some (List.replicate n 0)⟩
    p.1.setViewContent i (.bufferAttached p.2 (some (t, n)) false)
  | .described _ _ =>
    let p := S.allocSlot ⟨t, n, some (List.replicate n 0)⟩
    p.1.setViewContent i (.bufferAttached p.2 (some (t, n)) false)
  | .bufferAttached b _ a =>
    match S.data_buffers.getD b none with
    | some buf =>
      if buf.data = none then
        { S with
          data_buffers := S.data_buffers.set b (some ⟨t, n, some (List.replicate n 0)⟩),
          views := S.views.set i ⟨(S.views.getD i ⟨"", .empty⟩).name,
                                  .bufferAttached b (some (t, n)) a⟩ }
      else S
    | none => S
  | _ => S

/-- Modelled from the spec: `View::apply()` — commits the description against
the attached Buffer's allocated extent (fails if the addressed element count
exceeds the Buffer's allocation, if the Buffer is unallocated, or if there is
no description); an EXTERNAL View's extent is the caller's responsibility. -/
def applyView (S : DataStore) (i : Nat) : DataStore :=
  match S.viewContent i with
  | .bufferAttached b (some (t, n)) _ =>
    match S.data_buffers.getD b none with
    | some buf =>
      match buf.data with
      | some arr =>
        if n ≤ arr.length then
          S.setViewContent i (.bufferAttached b (some (t, n)) true)
        else S
      | none => S
    | none => S
  | .external p t n _ => S.setViewContent i (.external p t n true)
  | _ => S

/-- Modelled from the spec: `View::setExternalDataPtr(ptr, type, num_elems)`
— valid from EMPTY or DESCRIBED only; marks the View EXTERNAL with the given
description; the store does not own `ptr`. -/
def setExternalDataPtr (S : DataStore) (i : Nat) (p t n : Nat) : DataStore :=
  match S.viewContent i with
  | .empty => S.setViewContent i (.external p t n false)
  | .described _ _ => S.setViewContent i (.external p t n false)
  | _ => S

/-- Modelled from the spec: `View::setExternalDataPtr(ptr)` with no type
information — the View holds an uninterpreted pointer (OPAQUE mode). -/
def setOpaquePtr (S : DataStore) (i : Nat) (p : Nat) : DataStore :=
  match S.viewContent i with
  | .empty => S.setViewContent i (.opaqueHandle p)
  | .described _ _ => S.setViewContent i (.opaqueHandle p)
  | _ => S

/-- Modelled from the spec: `View::setScalar(value)` — valid from EMPTY only;
stores the value inline with no Buffer. -/
def setScalar (S : DataStore) (i : Nat) (x : Int) : DataStore :=
  match S.viewContent i with
  | .empty => S.setViewContent i (.scalar x)
  | _ => S

/-- Modelled from the spec: `View::setString(value)` — valid from EMPTY only;
stores the value inline with no Buffer. -/
def setString (S : DataStore) (i : Nat) (s : String) : DataStore :=
  match S.viewContent i with
  | .empty => S.setViewContent i (.string s)
  | _ => S

/-- Modelled from the spec: clearing a View returns it to EMPTY, detaching
any Buffer (the Buffer itself is untouched) and dropping inline content. -/
def clearView (S : DataStore) (i : Nat) : DataStore :=
  if i < S.views.length then S.setViewContent i .empty else S

/-- Modelled from the spec: `Buffer::reallocate` lifted to the DataStore: the
Buffer stays at its slot (identity is preserved); an unallocated or dead
Buffer leaves the state unchanged. -/
def reallocBuffer (S : DataStore) (id : Nat) (n : Nat) : DataStore :=
  match S.data_buffers.getD id none with
  | some b =>
    match b.reallocate n with
    | some b' => { S with data_buffers := S.data_buffers.set id (some b') }
    | none => S
  | none => S

end DataStore

/-- One DataStore / Group / View / Buffer operation of the public interface
(the arguments a client supplies). -/
inductive Op where
  | createBuffer : Op
  | createBufferTyped (t n : Nat) : Op
  | destroyBuffer (id : Nat) : Op
  | destroyAllBuffers : Op
  | reallocBuffer (id n : Nat) : Op
  | createView (name : String) : Op
  | createViewDescribed (name : String) (t n : Nat) : Op
  | destroyView (i : Nat) : Op
  | attachBuffer (i b : Nat) : Op
  | allocateView (i : Nat) : Op
  | allocateViewTyped (i t n : Nat) : Op
  | applyView (i : Nat) : Op
  | setExternalDataPtr (i p t n : Nat) : Op
  | setOpaquePtr (i p : Nat) : Op
  | setScalar (i : Nat) (x : Int) : Op
  | setString (i : Nat) (s : String) : Op
  | clearView (i : Nat) : Op
  deriving DecidableEq, Repr

/-- Apply one operation to a DataStore state. -/
def step (S : DataStore) : Op → DataStore
  | .createBuffer => (S.createBuffer).1
  | .createBufferTyped t n => (S.createBufferTyped t n).1
  | .destroyBuffer id => S.destroyBuffer id
  | .destroyAllBuffers => S.destroyAllBuffers
  | .reallocBuffer id n => S.reallocBuffer id n
  | .createView name => S.createView name
  | .createViewDescribed name t n => S.createViewDescribed name t n
  | .destroyView i => S.destroyView i
  | .attachBuffer i b => S.attachBuffer i b
  | .allocateView i => S.allocateView i
  | .allocateViewTyped i t n => S.allocateViewTyped i t n
  | .applyView i => S.applyView i
  | .setExternalDataPtr i p t n => S.setExternalDataPtr i p t n
  | .setOpaquePtr i p => S.setOpaquePtr i p
  | .setScalar i x => S.setScalar i x
  | .setString i s => S.setString i s
  | .clearView i => S.clearView i

/-- Run a sequence of operations from a starting state. -/
def runOps (S : DataStore) (ops : List Op) : DataStore :=
  ops.foldl step S

/-- A DataStore state is reachable when some operation sequence produces it
from the freshly constructed store. -/
def Reachable (S : DataStore) : Prop :=
  ∃ ops : List Op, runOps DataStore.init ops = S

/-! ## List helper lemmas -/

theorem getD_set_self {α : Type} (l : List α) (i : Nat) (x d : α) (h : i < l.length) :
    (l.set i x).getD i d = x := by
  induction l generalizing i with
  | nil => simp at h
  | cons a l ih =>
    cases i with
    | zero => rfl
    | succ j => exact ih j (by simpa using h)

theorem getD_set_ne {α : Type} (l : List α) (i j : Nat) (x d : α) (h : i ≠ j) :
    (l.set i x).getD j d = l.getD j d := by
  induction l generalizing i j with
  | nil => simp
  | cons a l ih =>
    cases i with
    | zero =>
      cases j with
      | zero => exact absurd rfl h
      | succ k => rfl
    | succ i' =>
      cases j with
      | zero => rfl
      | succ k => exact ih i' k (fun hc => h (by rw [hc]))

theorem getD_append_left {α : Type} (l l' : List α) (i : Nat) (d : α)
    (h : i < l.length) : (l ++ l').getD i d = l.getD i d := by
  induction l generalizing i with
  | nil => simp at h
  | cons a l ih =>
    cases i with
    | zero => rfl
    | succ j => exact ih j (by simpa using h)

theorem getD_append_self {α : Type} (l : List α) (x d : α) :
    (l ++ [x]).getD l.length d = x := by
  induction l with
  | nil => rfl
  | cons a l ih => exact ih

theorem getD_of_length_le {α : Type} (l : List α) (i : Nat) (d : α)
    (h : l.length ≤ i) : l.getD i d = d := by
  induction l generalizing i with
  | nil => cases i <;> rfl
  | cons a l ih =>
    cases i with
    | zero => simp at h
    | succ j => exact ih j (by simpa using h)

theorem mem_of_mem_set {α : Type} (l : List α) (i : Nat) (x y : α)
    (h : y ∈ l.set i x) : y ∈ l ∨ y = x := by
  induction l generalizing i with
  | nil => simp at h
  | cons a l ih =>
    cases i with
    | zero =>
      rcases List.mem_cons.mp h with h1 | h1
      · exact Or.inr h1
      · exact Or.inl (List.mem_cons_of_mem _ h1)
    | succ j =>
      rcases List.mem_cons.mp h with h1 | h1
      · exact Or.inl (h1 ▸ List.mem_cons_self a l)
      · rcases ih j h1 with h2 | h2
        · exact Or.inl (List.mem_cons_of_mem _ h2)
        · exact Or.inr h2

theorem mem_of_mem_eraseIdx {α : Type} (l : List α) (i : Nat) (y : α)
    (h : y ∈ l.eraseIdx i) : y ∈ l := by
  induction l generalizing i with
  | nil => simp [List.eraseIdx] at h
  | cons a l ih =>
    cases i with
    | zero => exact List.mem_cons_of_mem _ h
    | succ j =>
      rcases List.mem_cons.mp h with h1 | h1
      · exact h1 ▸ List.mem_cons_self a l
      · exact List.mem_cons_of_mem _ (ih j h1)

/-! ## The DataStore invariant -/

namespace DataStore

/-- The buffer-registry part of the DataStore invariant: the free-list ids
are pairwise distinct, each is a valid slot index whose slot is null, and
every null slot's id is on the free list. -/
def BufIdsOK (S : DataStore) : Prop :=
  S.free_buffer_ids.Nodup ∧
  (∀ id ∈ S.free_buffer_ids,
      id < S.data_buffers.length ∧ S.data_buffers.getD id none = none) ∧
  (∀ id, id < S.data_buffers.length → S.data_buffers.getD id none = none →
      id ∈ S.free_buffer_ids)

/-- The View part of the DataStore invariant: every Buffer reference held by
a View names a live slot, and an applied View is described. -/
def ViewsOK (S : DataStore) : Prop :=
  ∀ v ∈ S.views,
    (∀ b, v.content.bufRef = some b → S.slotLive b = true) ∧
    (v.content.isApplied = true → v.content.isDescribed = true)

/-- The full DataStore invariant. -/
def Inv (S : DataStore) : Prop := S.BufIdsOK ∧ S.ViewsOK

theorem inv_init : Inv init := by
  refine ⟨⟨List.nodup_nil, ?_, ?_⟩, ?_⟩ <;> intro x hx <;> simp [init] at hx

/-- A live slot id is within the slot vector. -/
theorem slotLive_lt {S : DataStore} {id : Nat} (h : S.slotLive id = true) :
    id < S.data_buffers.length := by
  by_contra hc
  rw [slotLive, getD_of_length_le _ _ _ (Nat.le_of_not_lt hc)] at h
  simp at h

theorem allocSlot_views (S : DataStore) (b : BufModel) :
    (S.allocSlot b).1.views = S.views := by
  rw [allocSlot]
  cases S.free_buffer_ids <;> rfl

/-- Allocating a slot keeps every live slot live. -/
theorem slotLive_allocSlot {S : DataStore} (b : BufModel) {x : Nat}
    (h : S.slotLive x = true) : (S.allocSlot b).1.slotLive x = true := by
  have hx := slotLive_lt h
  rw [allocSlot]
  cases hfree : S.free_buffer_ids with
  | nil =>
    show ((S.data_buffers ++ [some b]).getD x none).isSome = true
    rw [getD_append_left _ _ _ _ hx]
    exact h
  | cons id rest =>
    show ((S.data_buffers.set id (some b)).getD x none).isSome = true
    by_cases hid : id = x
    · subst hid
      rw [getD_set_self _ _ _ _ hx]
      rfl
    · rw [getD_set_ne _ _ _ _ _ hid]
      exact h

/-- The slot assigned by `allocSlot` is live afterwards. -/
theorem allocSlot_newLive {S : DataStore} (b : BufModel) (h : S.BufIdsOK) :
    (S.allocSlot b).1.slotLive (S.allocSlot b).2 = true := by
  rw [allocSlot]
  cases hfree : S.free_buffer_ids with
  | nil =>
    show ((S.data_buffers ++ [some b]).getD S.data_buffers.length none).isSome = true
    rw [getD_append_self]
    rfl
  | cons id rest =>
    have hid : id < S.data_buffers.length :=
      (h.2.1 id (by rw [hfree]; exact List.mem_cons_self id rest)).1
    show ((S.data_buffers.set id (some b)).getD id none).isSome = true
    rw [getD_set_self _ _ _ _ hid]
    rfl

theorem allocSlot_bufIdsOK {S : DataStore} (b : BufModel) (h : S.BufIdsOK) :
    (S.allocSlot b).1.BufIdsOK := by
  obtain ⟨hnd, hmem, hnull⟩ := h
  rw [allocSlot]
  cases hfree : S.free_buffer_ids with
  | nil =>
    refine ⟨List.nodup_nil, ?_, ?_⟩
    · intro x hx; simp at hx
    · intro x hxlen hxnull
      simp only [List.length_append, List.length_cons, List.length_nil] at hxlen
      by_cases hx : x < S.data_buffers.length
      · rw [getD_append_left _ _ _ _ hx] at hxnull
        have := hnull x hx hxnull
        rw [hfree] at this
        simp at this
      · have hxe : x = S.data_buffers.length := by omega
        rw [hxe, getD_append_self] at hxnull
        simp at hxnull
  | cons id rest =>
    rw [hfree] at hnd hmem hnull
    have hidlen : id < S.data_buffers.length := (hmem id (List.mem_cons_self id rest)).1
    have hidnr : id ∉ rest := (List.nodup_cons.mp hnd).1
    refine ⟨(List.nodup_cons.mp hnd).2, ?_, ?_⟩
    · intro x hx
      have hxne : id ≠ x := fun hc => hidnr (hc ▸ hx)
      obtain ⟨ha, hb⟩ := hmem x (List.mem_cons_of_mem _ hx)
      refine ⟨?_, ?_⟩
      · rw [List.length_set]
        exact ha
      · show (S.data_buffers.set id (some b)).getD x none = none
        rw [getD_set_ne _ _ _ _ _ hxne]
        exact hb
    · intro x hxlen hxnull
      simp only [List.length_set] at hxlen
      by_cases hxe : id = x
      · rw [← hxe, getD_set_self _ _ _ _ hidlen] at hxnull
        simp at hxnull
      · rw [getD_set_ne _ _ _ _ _ hxe] at hxnull
        have := hnull x hxlen hxnull
        rw [List.mem_cons] at this
        rcases this with h1 | h1
        · exact absurd h1.symm hxe
        · exact h1

theorem allocSlot_viewsOK {S : DataStore} (b : BufModel) (h : S.ViewsOK) :
    (S.allocSlot b).1.ViewsOK := by
  intro v hv
  rw [allocSlot_views] at hv
  obtain ⟨h1, h2⟩ := h v hv
  exact ⟨fun x hx => slotLive_allocSlot b (h1 x hx), h2⟩

theorem allocSlot_inv {S : DataStore} (b : BufModel) (h : S.Inv) :
    (S.allocSlot b).1.Inv :=
  ⟨allocSlot_bufIdsOK b h.1, allocSlot_viewsOK b h.2⟩

/-- Overwriting a live slot with a (new) live Buffer preserves the
invariant. -/
theorem set_some_inv {S : DataStore} {id : Nat} {b' : BufModel}
    (hs : (S.data_buffers.getD id none).isSome = true) (h : S.Inv) :
    Inv { S with data_buffers := S.data_buffers.set id (some b') } := by
  obtain ⟨⟨hnd, hmem, hnull⟩, hviews⟩ := h
  have hlt : id < S.data_buffers.length := slotLive_lt hs
  refine ⟨⟨hnd, ?_, ?_⟩, ?_⟩
  · intro x hx
    obtain ⟨hx1, hx2⟩ := hmem x hx
    have hxne : id ≠ x := by
      intro hc
      rw [hc, hx2] at hs
      simp at hs
    refine ⟨?_, ?_⟩
    · rw [List.length_set]
      exact hx1
    · show (S.data_buffers.set id (some b')).getD x none = none
      rw [getD_set_ne _ _ _ _ _ hxne]
      exact hx2
  · intro x hxlen hxnull
    simp only [List.length_set] at hxlen
    by_cases hxe : id = x
    · rw [← hxe] at hxnull
      have : (S.data_buffers.set id (some b')).getD id none = some b' :=
        getD_set_self _ _ _ _ hlt
      rw [this] at hxnull
      simp at hxnull
    · rw [show ({ S with data_buffers := S.data_buffers.set id (some b') } :
            DataStore).data_buffers.getD x none =
            (S.data_buffers.set id (some b')).getD x none from rfl,
          getD_set_ne _ _ _ _ _ hxe] at hxnull
      exact hnull x hxlen hxnull
  · intro v hv
    obtain ⟨h1, h2⟩ := hviews v hv
    refine ⟨fun x hx => ?_, h2⟩
    show ((S.data_buffers.set id (some b')).getD x none).isSome = true
    by_cases hxe : id = x
    · subst hxe
      rw [getD_set_self _ _ _ _ hlt]
      rfl
    · rw [getD_set_ne _ _ _ _ _ hxe]
      exact h1 x hx

/-- A free-list id is never a live slot. -/
theorem free_not_live {S : DataStore} (h : S.BufIdsOK) {id : Nat}
    (hid : id ∈ S.free_buffer_ids) : S.slotLive id = false := by
  rw [slotLive, (h.2.1 id hid).2]
  rfl

theorem destroyBuffer_inv {S : DataStore} (id : Nat) (h : S.Inv) :
    (S.destroyBuffer id).Inv := by
  obtain ⟨⟨hnd, hmem, hnull⟩, hviews⟩ := h
  rw [destroyBuffer]
  by_cases hlive : S.slotLive id = true
  · rw [if_pos hlive]
    have hlt : id < S.data_buffers.length := slotLive_lt hlive
    have hnotfree : id ∉ S.free_buffer_ids := by
      intro hc
      rw [free_not_live ⟨hnd, hmem, hnull⟩ hc] at hlive
      simp at hlive
    refine ⟨⟨List.nodup_cons.mpr ⟨hnotfree, hnd⟩, ?_, ?_⟩, ?_⟩
    · intro x hx
      rcases List.mem_cons.mp hx with h1 | h1
      · subst h1
        refine ⟨by rw [List.length_set]; exact hlt, ?_⟩
        show (S.data_buffers.set x none).getD x none = none
        rw [getD_set_self _ _ _ _ hlt]
      · obtain ⟨ha, hb⟩ := hmem x h1
        have hxne : id ≠ x := fun hc => hnotfree (hc ▸ h1)
        refine ⟨by rw [List.length_set]; exact ha, ?_⟩
        show (S.data_buffers.set id none).getD x none = none
        rw [getD_set_ne _ _ _ _ _ hxne]
        exact hb
    · intro x hxlen hxnull
      simp only [List.length_set] at hxlen
      by_cases hxe : id = x
      · exact hxe ▸ List.mem_cons_self id S.free_buffer_ids
      · refine List.mem_cons_of_mem _ ?_
        rw [show ({ data_buffers := S.data_buffers.set id none,
                    free_buffer_ids := id :: S.free_buffer_ids,
                    views := S.views.map (detachFrom id) } :
              DataStore).data_buffers.getD x none =
              (S.data_buffers.set id none).getD x none from rfl,
            getD_set_ne _ _ _ _ _ hxe] at hxnull
        exact hnull x hxlen hxnull
    · intro v' hv'
      obtain ⟨v, hv, hdet⟩ := List.mem_map.mp hv'
      obtain ⟨h1, h2⟩ := hviews v hv
      obtain ⟨nm, cont⟩ := v
      subst hdet
      cases cont with
      | bufferAttached b d a =>
        simp only [detachFrom]
        by_cases hb : b = id
        · rw [if_pos hb]
          cases d with
          | none =>
            exact ⟨fun x hx => (nomatch hx), fun hx => (nomatch hx)⟩
          | some p =>
            obtain ⟨t, n⟩ := p
            exact ⟨fun x hx => (nomatch hx), fun hx => (nomatch hx)⟩
        · rw [if_neg hb]
          refine ⟨fun x hx => ?_, h2⟩
          cases hx
          have hxlive : S.slotLive b = true := h1 b rfl
          show ((S.data_buffers.set id none).getD b none).isSome = true
          rw [getD_set_ne _ _ _ _ _ (fun hc2 => hb hc2.symm)]
          exact hxlive
      | empty =>
        exact ⟨fun x hx => (nomatch hx), fun hx => (nomatch hx)⟩
      | described t n =>
        exact ⟨fun x hx => (nomatch hx), fun hx => (nomatch hx)⟩
      | external p t n a =>
        exact ⟨fun x hx => (nomatch hx), fun _ => rfl⟩
      | scalar x0 =>
        exact ⟨fun x hx => (nomatch hx), fun _ => rfl⟩
      | string s0 =>
        exact ⟨fun x hx => (nomatch hx), fun _ => rfl⟩
      | opaqueHandle p =>
        exact ⟨fun x hx => (nomatch hx), fun hx => (nomatch hx)⟩
  · rw [if_neg hlive]
    exact ⟨⟨hnd, hmem, hnull⟩, hviews⟩

theorem destroyAllBuffers_inv {S : DataStore} (h : S.Inv) :
    S.destroyAllBuffers.Inv := by
  rw [destroyAllBuffers]
  generalize List.range S.data_buffers.length = l
  induction l generalizing S with
  | nil => exact h
  | cons a l ih => exact ih (destroyBuffer_inv a h)

theorem reallocBuffer_inv {S : DataStore} (id n : Nat) (h : S.Inv) :
    (S.reallocBuffer id n).Inv := by
  rw [reallocBuffer]
  cases hslot : S.data_buffers.getD id none with
  | none => exact h
  | some b =>
    show (match b.reallocate n with
          | some b' => { S with data_buffers := S.data_buffers.set id (some b') }
          | none => S).Inv
    cases b.reallocate n with
    | none => exact h
    | some b' =>
      exact set_some_inv (by rw [hslot]; rfl) h

theorem setViewContent_inv {S : DataStore} {i : Nat} {c : ViewContent}
    (h : S.Inv)
    (hbuf : ∀ b, c.bufRef = some b → S.slotLive b = true)
    (had : c.isApplied = true → c.isDescribed = true) :
    (S.setViewContent i c).Inv := by
  obtain ⟨hbufok, hviews⟩ := h
  rw [setViewContent]
  refine ⟨hbufok, ?_⟩
  intro v hv
  rcases mem_of_mem_set _ _ _ _ hv with h1 | h1
  · exact hviews v h1
  · subst h1
    exact ⟨hbuf, had⟩

theorem createView_inv {S : DataStore} (name : String) (h : S.Inv) :
    (S.createView name).Inv := by
  rw [createView]
  by_cases hg : S.views.all (fun v => v.name ≠ name) = true
  · rw [if_pos hg]
    refine ⟨h.1, ?_⟩
    intro v hv
    rcases List.mem_append.mp hv with h1 | h1
    · exact h.2 v h1
    · rw [List.mem_singleton] at h1
      subst h1
      exact ⟨fun x hx => (nomatch hx), fun hx => (nomatch hx)⟩
  · rw [if_neg hg]
    exact h

theorem createViewDescribed_inv {S : DataStore} (name : String) (t n : Nat)
    (h : S.Inv) : (S.createViewDescribed name t n).Inv := by
  rw [createViewDescribed]
  by_cases hg : S.views.all (fun v => v.name ≠ name) = true
  · rw [if_pos hg]
    refine ⟨h.1, ?_⟩
    intro v hv
    rcases List.mem_append.mp hv with h1 | h1
    · exact h.2 v h1
    · rw [List.mem_singleton] at h1
      subst h1
      exact ⟨fun x hx => (nomatch hx), fun hx => (nomatch hx)⟩
  · rw [if_neg hg]
    exact h

theorem destroyView_inv {S : DataStore} (i : Nat) (h : S.Inv) :
    (S.destroyView i).Inv := by
  rw [destroyView]
  refine ⟨h.1, ?_⟩
  intro v hv
  exact h.2 v (mem_of_mem_eraseIdx _ _ _ hv)

theorem attachBuffer_inv {S : DataStore} (i b : Nat) (h : S.Inv) :
    (S.attachBuffer i b).Inv := by
  rw [attachBuffer]
  by_cases hlive : S.slotLive b = true
  · rw [if_pos hlive]
    cases hvc : S.viewContent i with
    | empty =>
      exact setViewContent_inv h
        (fun x hx => by cases hx; exact hlive) (fun hx => (nomatch hx))
    | described t n =>
      exact setViewContent_inv h
        (fun x hx => by cases hx; exact hlive) (fun hx => (nomatch hx))
    | bufferAttached b0 d a => exact h
    | external p t n a => exact h
    | scalar x => exact h
    | string s => exact h
    | opaqueHandle p => exact h
  · rw [if_neg hlive]
    exact h

theorem allocateView_inv {S : DataStore} (i : Nat) (h : S.Inv) :
    (S.allocateView i).Inv := by
  rw [allocateView]
  cases hvc : S.viewContent i with
  | empty => exact h
  | described t n =>
    exact setViewContent_inv (allocSlot_inv _ h)
      (fun x hx => by cases hx; exact allocSlot_newLive _ h.1)
      (fun hx => (nomatch hx))
  | bufferAttached b d a =>
    cases d with
    | none => exact h
    | some p =>
      obtain ⟨t, n⟩ := p
      show (match S.data_buffers.getD b none with
            | some buf =>
              if buf.data = none then
                { S with data_buffers :=
                    S.data_buffers.set b (some ⟨t, n, some (List.replicate n 0)⟩) }
              else S
            | none => S).Inv
      cases hslot : S.data_buffers.getD b none with
      | none => exact h
      | some buf =>
        show (if buf.data = none then
                { S with data_buffers :=
                    S.data_buffers.set b (some ⟨t, n, some (List.replicate n 0)⟩) }
              else S).Inv
        by_cases hd : buf.data = none
        · rw [if_pos hd]
          exact set_some_inv (by rw [hslot]; rfl) h
        · rw [if_neg hd]
          exact h
  | external p t n a => exact h
  | scalar x => exact h
  | string s => exact h
  | opaqueHandle p => exact h

theorem allocateViewTyped_inv {S : DataStore} (i t n : Nat) (h : S.Inv) :
    (S.allocateViewTyped i t n).Inv := by
  rw [allocateViewTyped]
  cases hvc : S.viewContent i with
  | empty =>
    exact setViewContent_inv (allocSlot_inv _ h)
      (fun x hx => by cases hx; exact allocSlot_newLive _ h.1)
      (fun hx => (nomatch hx))
  | described t0 n0 =>
    exact setViewContent_inv (allocSlot_inv _ h)
      (fun x hx => by cases hx; exact allocSlot_newLive _ h.1)
      (fun hx => (nomatch hx))
  | bufferAttached b d a =>
    show (match S.data_buffers.getD b none with
          | some buf =>
            if buf.data = none then
              { S with
                data_buffers := S.data_buffers.set b (some ⟨t, n, some (List.replicate n 0)⟩),
                views := S.views.set i ⟨(S.views.getD i ⟨"", .empty⟩).name,
                                        .bufferAttached b (some (t, n)) a⟩ }
            else S
          | none => S).Inv
    cases hslot : S.data_buffers.getD b none with
    | none => exact h
    | some buf =>
      show (if buf.data = none then
              { S with
                data_buffers := S.data_buffers.set b (some ⟨t, n, some (List.replicate n 0)⟩),
                views := S.views.set i ⟨(S.views.getD i ⟨"", .empty⟩).name,
                                        .bufferAttached b (some (t, n)) a⟩ }
            else S).Inv
      by_cases hd : buf.data = none
      · rw [if_pos hd]
        have hlt : b < S.data_buffers.length := slotLive_lt (by rw [slotLive, hslot]; rfl)
        have h1 : Inv { S with data_buffers := S.data_buffers.set b (some ⟨t, n, some (List.replicate n 0)⟩) } :=
          set_some_inv (by rw [hslot]; rfl) h
        exact setViewContent_inv h1
          (fun x hx => by
            cases hx
            show ((S.data_buffers.set b (some ⟨t, n, some (List.replicate n 0)⟩)).getD
                    b none).isSome = true
            rw [getD_set_self _ _ _ _ hlt]
            rfl)
          (fun _ => rfl)
      · rw [if_neg hd]
        exact h
  | external p0 t0 n0 a => exact h
  | scalar x => exact h
  | string s => exact h
  | opaqueHandle p => exact h

theorem applyView_inv {S : DataStore} (i : Nat) (h : S.Inv) :
    (S.applyView i).Inv := by
  rw [applyView]
  cases hvc : S.viewContent i with
  | empty => exact h
  | described t n => exact h
  | bufferAttached b d a =>
    cases d with
    | none => exact h
    | some p =>
      obtain ⟨t, n⟩ := p
      show (match S.data_buffers.getD b none with
            | some buf =>
              match buf.data with
              | some arr =>
                if n ≤ arr.length then
                  S.setViewContent i (.bufferAttached b (some (t, n)) true)
                else S
              | none => S
            | none => S).Inv
      cases hslot : S.data_buffers.getD b none with
      | none => exact h
      | some buf =>
        show (match buf.data with
              | some arr =>
                if n ≤ arr.length then
                  S.setViewContent i (.bufferAttached b (some (t, n)) true)
                else S
              | none => S).Inv
        cases buf.data with
        | none => exact h
        | some arr =>
          show (if n ≤ arr.length then
                  S.setViewContent i (.bufferAttached b (some (t, n)) true)
                else S).Inv
          by_cases hle : n ≤ arr.length
          · rw [if_pos hle]
            exact setViewContent_inv h
              (fun x hx => by cases hx; rw [slotLive, hslot]; rfl)
              (fun _ => rfl)
          · rw [if_neg hle]
            exact h
  | external p t n a =>
    exact setViewContent_inv h (fun x hx => (nomatch hx)) (fun _ => rfl)
  | scalar x => exact h
  | string s => exact h
  | opaqueHandle p => exact h

theorem setExternalDataPtr_inv {S : DataStore} (i p t n : Nat) (h : S.Inv) :
    (S.setExternalDataPtr i p t n).Inv := by
  rw [setExternalDataPtr]
  cases hvc : S.viewContent i with
  | empty => exact setViewContent_inv h (fun x hx => (nomatch hx)) (fun _ => rfl)
  | described t0 n0 =>
    exact setViewContent_inv h (fun x hx => (nomatch hx)) (fun _ => rfl)
  | bufferAttached b d a => exact h
  | external p0 t0 n0 a => exact h
  | scalar x => exact h
  | string s => exact h
  | opaqueHandle p0 => exact h

theorem setOpaquePtr_inv {S : DataStore} (i p : Nat) (h : S.Inv) :
    (S.setOpaquePtr i p).Inv := by
  rw [setOpaquePtr]
  cases hvc : S.viewContent i with
  | empty => exact setViewContent_inv h (fun x hx => (nomatch hx)) (fun hx => (nomatch hx))
  | described t0 n0 =>
    exact setViewContent_inv h (fun x hx => (nomatch hx)) (fun hx => (nomatch hx))
  | bufferAttached b d a => exact h
  | external p0 t0 n0 a => exact h
  | scalar x => exact h
  | string s => exact h
  | opaqueHandle p0 => exact h

theorem setScalar_inv {S : DataStore} (i : Nat) (x : Int) (h : S.Inv) :
    (S.setScalar i x).Inv := by
  rw [setScalar]
  cases hvc : S.viewContent i with
  | empty => exact setViewContent_inv h (fun y hy => (nomatch hy)) (fun hy => (nomatch hy))
  | described t0 n0 => exact h
  | bufferAttached b d a => exact h
  | external p0 t0 n0 a => exact h
  | scalar x0 => exact h
  | string s => exact h
  | opaqueHandle p0 => exact h

theorem setString_inv {S : DataStore} (i : Nat) (s : String) (h : S.Inv) :
    (S.setString i s).Inv := by
  rw [setString]
  cases hvc : S.viewContent i with
  | empty => exact setViewContent_inv h (fun y hy => (nomatch hy)) (fun hy => (nomatch hy))
  | described t0 n0 => exact h
  | bufferAttached b d a => exact h
  | external p0 t0 n0 a => exact h
  | scalar x0 => exact h
  | string s0 => exact h
  | opaqueHandle p0 => exact h

theorem clearView_inv {S : DataStore} (i : Nat) (h : S.Inv) :
    (S.clearView i).Inv := by
  rw [clearView]
  by_cases hi : i < S.views.length
  · rw [if_pos hi]
    exact setViewContent_inv h (fun y hy => (nomatch hy)) (fun hy => (nomatch hy))
  · rw [if_neg hi]
    exact h

/-- Every operation of the public interface preserves the DataStore
invariant. -/
theorem step_inv {S : DataStore} (op : Op) (h : S.Inv) : (step S op).Inv := by
  cases op with
  | createBuffer => exact allocSlot_inv _ h
  | createBufferTyped t n => exact allocSlot_inv _ h
  | destroyBuffer id => exact destroyBuffer_inv id h
  | destroyAllBuffers => exact destroyAllBuffers_inv h
  | reallocBuffer id n => exact reallocBuffer_inv id n h
  | createView name => exact createView_inv name h
  | createViewDescribed name t n => exact createViewDescribed_inv name t n h
  | destroyView i => exact destroyView_inv i h
  | attachBuffer i b => exact attachBuffer_inv i b h
  | allocateView i => exact allocateView_inv i h
  | allocateViewTyped i t n => exact allocateViewTyped_inv i t n h
  | applyView i => exact applyView_inv i h
  | setExternalDataPtr i p t n => exact setExternalDataPtr_inv i p t n h
  | setOpaquePtr i p => exact setOpaquePtr_inv i p h
  | setScalar i x => exact setScalar_inv i x h
  | setString i s => exact setString_inv i s h
  | clearView i => exact clearView_inv i h

theorem runOps_inv {S : DataStore} (ops : List Op) (h : S.Inv) :
    (runOps S ops).Inv := by
  induction ops generalizing S with
  | nil => exact h
  | cons op ops ih => exact ih (step_inv op h)

/-- Every reachable DataStore state satisfies the invariant. -/
theorem reachable_inv {S : DataStore} (h : Reachable S) : S.Inv := by
  obtain ⟨ops, hops⟩ := h
  subst hops
  exact runOps_inv ops inv_init

end DataStore

/-! ## Serialization (save / load)

`DataStore::save` / `DataStore::load` bodies are not in the repository
snapshot (DataStore.hpp only declares them and documents the protocols
`conduit` (binary), `conduit_hdf5` and `text`), so the serialized Group tree
and the encoder/decoder pair are modelled from the specification: a Group
tree whose nodes carry named, typed, shaped Views with their data values is
written as a flat token stream and read back by a stack machine. -/

/-- The serializable description of one View: its name, element type tag,
shape and data values. -/
structure ViewData where
  name : String
  elemType : Nat
  shape : List Nat
  values : List Int
  deriving DecidableEq, Repr

mutual

/-- Modelled from the spec: the serializable Group tree — each Group has a
name, a list of Views and an ordered forest of child Groups. -/
inductive STree where
  | group (name : String) (views : List ViewData) (children : STreeForest) : STree

/-- An ordered forest of serializable Groups. -/
inductive STreeForest where
  | nil : STreeForest
  | cons (t : STree) (ts : STreeForest) : STreeForest

end

namespace STreeForest

/-- Reverse-append on forests. -/
def revApp : STreeForest → STreeForest → STreeForest
  | .nil, acc => acc
  | .cons t ts, acc => revApp ts (.cons t acc)

/-- Forest reversal. -/
def reverse (f : STreeForest) : STreeForest := f.revApp .nil

theorem revApp_revApp : (f : STreeForest) →
    ∀ g : STreeForest, (f.revApp g).revApp .nil = g.revApp f
  | .nil, _ => rfl
  | .cons t ts, g => revApp_revApp ts (.cons t g)

theorem reverse_reverse (f : STreeForest) : f.reverse.reverse = f := by
  rw [reverse, reverse, revApp_revApp]
  rfl

end STreeForest

/-- One token of the flat serialized stream: a Group opener carrying the
Group's name and Views, or a Group closer. -/
inductive SToken where
  | openGroup (name : String) (views : List ViewData) : SToken
  | closeGroup : SToken

mutual

/-- Modelled from the spec: the bit-exact encoding of a Group tree — an
opener token, the encodings of the children in order, a closer token. -/
def STree.encode : STree → List SToken
  | .group n vs cs => .openGroup n vs :: (cs.encodeForest ++ [.closeGroup])

/-- The encoding of a forest: the children's encodings concatenated. -/
def STreeForest.encodeForest : STreeForest → List SToken
  | .nil => []
  | .cons t ts => t.encode ++ ts.encodeForest

end

/-- The decoder's stack machine: each frame holds the name and Views of an
open Group and the (reversed) children decoded so far.  The machine accepts
exactly the well-bracketed streams that encode one tree. -/
def decodeLoop : List SToken → List (String × List ViewData × STreeForest) → Option STree
  | [], _ => none
  | .openGroup n vs :: rest, stack => decodeLoop rest ((n, vs, .nil) :: stack)
  | .closeGroup :: _, [] => none
  | .closeGroup :: rest, (n, vs, acc) :: stack =>
    match stack with
    | [] => if rest.isEmpty then some (.group n vs acc.reverse) else none
    | (n', vs', acc') :: stack' =>
      decodeLoop rest ((n', vs', .cons (.group n vs acc.reverse) acc') :: stack')

/-- Modelled from the spec: decoding a serialized stream into a Group tree. -/
def decodeStream (toks : List SToken) : Option STree := decodeLoop toks []

mutual

theorem decodeLoop_encode_tree (t : STree) (rest : List SToken) (n : String)
    (vs : List ViewData) (acc : STreeForest)
    (stack : List (String × List ViewData × STreeForest)) :
    decodeLoop (t.encode ++ rest) ((n, vs, acc) :: stack) =
      decodeLoop rest ((n, vs, .cons t acc) :: stack) := by
  cases t with
  | group n' vs' cs =>
    rw [STree.encode]
    show decodeLoop (cs.encodeForest ++ [SToken.closeGroup] ++ rest)
        ((n', vs', .nil) :: (n, vs, acc) :: stack) =
      decodeLoop rest ((n, vs, .cons (.group n' vs' cs) acc) :: stack)
    rw [List.append_assoc,
        decodeLoop_encode_forest cs ([SToken.closeGroup] ++ rest) n' vs' .nil
          ((n, vs, acc) :: stack)]
    show decodeLoop rest
        ((n, vs, .cons (.group n' vs' (cs.revApp .nil).reverse) acc) :: stack) =
      decodeLoop rest ((n, vs, .cons (.group n' vs' cs) acc) :: stack)
    rw [show (cs.revApp .nil).reverse = cs from cs.reverse_reverse]

theorem decodeLoop_encode_forest (f : STreeForest) (rest : List SToken)
    (n : String) (vs : List ViewData) (acc : STreeForest)
    (stack : List (String × List ViewData × STreeForest)) :
    decodeLoop (f.encodeForest ++ rest) ((n, vs, acc) :: stack) =
      decodeLoop rest ((n, vs, f.revApp acc) :: stack) := by
  cases f with
  | nil => rfl
  | cons t ts =>
    rw [STreeForest.encodeForest, List.append_assoc,
        decodeLoop_encode_tree t (ts.encodeForest ++ rest) n vs acc stack,
        decodeLoop_encode_forest ts rest n vs (.cons t acc) stack]
    rfl

end

/-- Decoding inverts encoding. -/
theorem decodeStream_encode (t : STree) : decodeStream t.encode = some t := by
  cases t with
  | group n vs cs =>
    rw [decodeStream, STree.encode]
    show decodeLoop (cs.encodeForest ++ [SToken.closeGroup]) [(n, vs, .nil)] =
      some (.group n vs cs)
    rw [decodeLoop_encode_forest cs [SToken.closeGroup] n vs .nil []]
    show some (STree.group n vs (cs.revApp .nil).reverse) = some (.group n vs cs)
    rw [show (cs.revApp .nil).reverse = cs from cs.reverse_reverse]

/-- The persistence protocols documented on `DataStore::save` in
DataStore.hpp: `conduit` (binary), `conduit_hdf5`, and `text` (a debugging
dump). -/
inductive Protocol where
  | conduit : Protocol
  | conduit_hdf5 : Protocol
  | text : Protocol
  deriving DecidableEq, Repr

/-- The binary protocols are bit-exact; the `text` protocol is a debugging
dump with no fidelity promise. -/
def Protocol.isBitExact : Protocol → Bool
  | .conduit => true
  | .conduit_hdf5 => true
  | .text => false

/-- The contents written at a file path: the protocol the file was written
with, and the serialized stream. -/
structure SaveFile where
  protocolTag : Protocol
  payload : List SToken

/-- Modelled from the spec: `DataStore::save(path, protocol)` writes the
Group tree through the chosen protocol; the result is the file contents at
`path`. -/
def save (p : Protocol) (t : STree) : SaveFile := ⟨p, t.encode⟩

/-- Modelled from the spec: `DataStore::load(path, protocol)` reads the file
back through the chosen protocol into a fresh DataStore's root Group,
failing on a protocol mismatch or a malformed stream. -/
def load (p : Protocol) (f : SaveFile) : Option STree :=
  if f.protocolTag = p then decodeStream f.payload else none

/-! ## More list helper lemmas for the claim theorems -/

theorem getD_map {α β : Type} (f : α → β) (l : List α) (i : Nat) (d : α)
    (h : i < l.length) : (l.map f).getD i (f d) = f (l.getD i d) := by
  induction l generalizing i with
  | nil => simp at h
  | cons a l ih =>
    cases i with
    | zero => rfl
    | succ j => exact ih j (by simpa using h)

theorem getD_take {α : Type} (l : List α) (n i : Nat) (d : α) (h : i < n) :
    (l.take n).getD i d = l.getD i d := by
  induction l generalizing n i with
  | nil => simp
  | cons a l ih =>
    cases n with
    | zero => exact absurd h (Nat.not_lt_zero i)
    | succ m =>
      cases i with
      | zero => rfl
      | succ j => exact ih m j (Nat.lt_of_succ_lt_succ h)

theorem length_eraseIdx_lt {α : Type} (l : List α) (i : Nat) (h : i < l.length) :
    (l.eraseIdx i).length = l.length - 1 := by
  induction l generalizing i with
  | nil => simp at h
  | cons a l ih =>
    cases i with
    | zero => simp [List.eraseIdx]
    | succ j =>
      have := ih j (by simpa using h)
      simp only [List.eraseIdx, List.length_cons, this]
      have hl : 0 < l.length := Nat.lt_of_le_of_lt (Nat.zero_le j) (by simpa using h)
      omega

theorem filter_eq_nil_of_all {α : Type} (p : α → Bool) (l : List α)
    (h : ∀ a ∈ l, p a = false) : l.filter p = [] := by
  induction l with
  | nil => rfl
  | cons a l ih =>
    rw [List.filter_cons, h a (List.mem_cons_self a l)]
    exact ih (fun x hx => h x (List.mem_cons_of_mem _ hx))

theorem nodup_bounded_length_le (l : List Nat) (n : Nat) (hnd : l.Nodup)
    (hb : ∀ x ∈ l, x < n) : l.length ≤ n := by
  classical
  have h1 : l.toFinset.card = l.length := List.toFinset_card_of_nodup hnd
  have h2 : l.toFinset ⊆ Finset.range n := by
    intro x hx
    rw [Finset.mem_range]
    exact hb x (List.mem_toFinset.mp hx)
  have h3 := Finset.card_le_card h2
  rw [h1, Finset.card_range] at h3
  exact h3

/-- The id assigned by `allocSlot` was not a live slot beforehand. -/
theorem DataStore.allocSlot_newId_not_live {S : DataStore} (b : BufModel)
    (h : S.BufIdsOK) : S.slotLive (S.allocSlot b).2 = false := by
  rw [DataStore.allocSlot]
  cases hfree : S.free_buffer_ids with
  | nil =>
    show (S.data_buffers.getD S.data_buffers.length none).isSome = false
    rw [getD_of_length_le _ _ _ (Nat.le_refl _)]
    rfl
  | cons id rest =>
    show (S.data_buffers.getD id none).isSome = false
    rw [(h.2.1 id (by rw [hfree]; exact List.mem_cons_self id rest)).2]
    rfl

/-- The id assigned by `createBuffer` was not a live slot beforehand. -/
theorem DataStore.createBuffer_newId_not_live {S : DataStore} (h : S.BufIdsOK) :
    S.slotLive (S.createBuffer).2 = false :=
  DataStore.allocSlot_newId_not_live BufModel.fresh h

/-- After `allocSlot`, the assigned slot holds the supplied Buffer. -/
theorem DataStore.allocSlot_getD_new {S : DataStore} (b : BufModel)
    (h : S.BufIdsOK) :
    (S.allocSlot b).1.data_buffers.getD (S.allocSlot b).2 none = some b := by
  rw [DataStore.allocSlot]
  cases hfree : S.free_buffer_ids with
  | nil =>
    show (S.data_buffers ++ [some b]).getD S.data_buffers.length none = some b
    exact getD_append_self _ _ _
  | cons id rest =>
    have hid : id < S.data_buffers.length :=
      (h.2.1 id (by rw [hfree]; exact List.mem_cons_self id rest)).1
    show (S.data_buffers.set id (some b)).getD id none = some b
    exact getD_set_self _ _ _ _ hid

/-- Reading back the View content just written by `setViewContent`. -/
theorem DataStore.viewContent_setViewContent {S : DataStore} {i : Nat}
    (c : ViewContent) (h : i < S.views.length) :
    (S.setViewContent i c).viewContent i = c := by
  rw [DataStore.setViewContent, DataStore.viewContent]
  show ((S.views.set i
    { S.views.getD i ⟨"", .empty⟩ with content := c }).getD i ⟨"", .empty⟩).content = c
  rw [getD_set_self _ _ _ _ h]

/-- `allocSlot` never shrinks the slot vector. -/
theorem DataStore.allocSlot_length_ge (S : DataStore) (b : BufModel) :
    S.data_buffers.length ≤ (S.allocSlot b).1.data_buffers.length := by
  rw [DataStore.allocSlot]
  cases hfree : S.free_buffer_ids with
  | nil =>
    show S.data_buffers.length ≤ (S.data_buffers ++ [some b]).length
    rw [List.length_append]
    exact Nat.le_add_right _ _
  | cons id rest =>
    show S.data_buffers.length ≤ (S.data_buffers.set id (some b)).length
    rw [List.length_set]

/-- `destroyBuffer` keeps the slot vector's size. -/
theorem DataStore.destroyBuffer_length (S : DataStore) (id : Nat) :
    (S.destroyBuffer id).data_buffers.length = S.data_buffers.length := by
  rw [DataStore.destroyBuffer]
  by_cases hl : S.slotLive id = true
  · rw [if_pos hl]
    exact List.length_set ..
  · rw [if_neg hl]

/-- No operation of the interface ever removes a slot from the slot vector:
its size is monotone, so it records the total number of slots ever used. -/
theorem DataStore.step_length_mono (S : DataStore) (op : Op) :
    S.data_buffers.length ≤ (step S op).data_buffers.length := by
  cases op with
  | createBuffer => exact DataStore.allocSlot_length_ge S _
  | createBufferTyped t n => exact DataStore.allocSlot_length_ge S _
  | destroyBuffer id => exact Nat.le_of_eq (DataStore.destroyBuffer_length S id).symm
  | destroyAllBuffers =>
    show S.data_buffers.length ≤ S.destroyAllBuffers.data_buffers.length
    rw [DataStore.destroyAllBuffers]
    generalize List.range S.data_buffers.length = l
    induction l generalizing S with
    | nil => exact Nat.le_refl _
    | cons a l ih =>
      calc S.data_buffers.length
          = (S.destroyBuffer a).data_buffers.length :=
            (DataStore.destroyBuffer_length S a).symm
        _ ≤ _ := ih (S.destroyBuffer a)
  | reallocBuffer id n =>
    show S.data_buffers.length ≤ (S.reallocBuffer id n).data_buffers.length
    rw [DataStore.reallocBuffer]
    cases hslot : S.data_buffers.getD id none with
    | none => exact Nat.le_refl _
    | some b =>
      show S.data_buffers.length ≤ (match b.reallocate n with
          | some b' => { S with data_buffers := S.data_buffers.set id (some b') }
          | none => S).data_buffers.length
      cases b.reallocate n with
      | none => exact Nat.le_refl _
      | some b' =>
        show S.data_buffers.length ≤ (S.data_buffers.set id (some b')).length
        rw [List.length_set]
  | createView name =>
    show S.data_buffers.length ≤ (S.createView name).data_buffers.length
    rw [DataStore.createView]
    by_cases hg : S.views.all (fun v => v.name ≠ name) = true
    · rw [if_pos hg]
    · rw [if_neg hg]
  | createViewDescribed name t n =>
    show S.data_buffers.length ≤ (S.createViewDescribed name t n).data_buffers.length
    rw [DataStore.createViewDescribed]
    by_cases hg : S.views.all (fun v => v.name ≠ name) = true
    · rw [if_pos hg]
    · rw [if_neg hg]
  | destroyView i => exact Nat.le_refl _
  | attachBuffer i b =>
    show S.data_buffers.length ≤ (S.attachBuffer i b).data_buffers.length
    rw [DataStore.attachBuffer]
    by_cases hl : S.slotLive b = true
    · rw [if_pos hl]
      cases S.viewContent i <;> exact Nat.le_refl _
    · rw [if_neg hl]
  | allocateView i =>
    show S.data_buffers.length ≤ (S.allocateView i).data_buffers.length
    rw [DataStore.allocateView]
    cases hvc : S.viewContent i with
    | described t n => exact DataStore.allocSlot_length_ge S _
    | bufferAttached b d a =>
      cases d with
      | none => exact Nat.le_refl _
      | some p =>
        obtain ⟨t, n⟩ := p
        show S.data_buffers.length ≤ (match S.data_buffers.getD b none with
            | some buf =>
              if buf.data = none then
                { S with data_buffers :=
                    S.data_buffers.set b (some ⟨t, n, some (List.replicate n 0)⟩) }
              else S
            | none => S).data_buffers.length
        cases hslot : S.data_buffers.getD b none with
        | none => exact Nat.le_refl _
        | some buf =>
          show S.data_buffers.length ≤ (if buf.data = none then
              { S with data_buffers :=
                  S.data_buffers.set b (some ⟨t, n, some (List.replicate n 0)⟩) }
            else S).data_buffers.length
          by_cases hd : buf.data = none
          · rw [if_pos hd]
            show S.data_buffers.length ≤
              (S.data_buffers.set b (some ⟨t, n, some (List.replicate n 0)⟩)).length
            rw [List.length_set]
          · rw [if_neg hd]
    | empty => exact Nat.le_refl _
    | external p t n a => exact Nat.le_refl _
    | scalar x => exact Nat.le_refl _
    | string s => exact Nat.le_refl _
    | opaqueHandle p => exact Nat.le_refl _
  | allocateViewTyped i t n =>
    show S.data_buffers.length ≤ (S.allocateViewTyped i t n).data_buffers.length
    rw [DataStore.allocateViewTyped]
    cases hvc : S.viewContent i with
    | empty => exact DataStore.allocSlot_length_ge S _
    | described t0 n0 => exact DataStore.allocSlot_length_ge S _
    | bufferAttached b d a =>
      show S.data_buffers.length ≤ (match S.data_buffers.getD b none with
          | some buf =>
            if buf.data = none then
              { S with
                data_buffers := S.data_buffers.set b (some ⟨t, n, some (List.replicate n 0)⟩),
                views := S.views.set i ⟨(S.views.getD i ⟨"", .empty⟩).name,
                                        .bufferAttached b (some (t, n)) a⟩ }
            else S
          | none => S).data_buffers.length
      cases hslot : S.data_buffers.getD b none with
      | none => exact Nat.le_refl _
      | some buf =>
        show S.data_buffers.length ≤ (if buf.data = none then
            { S with
              data_buffers := S.data_buffers.set b (some ⟨t, n, some (List.replicate n 0)⟩),
              views := S.views.set i ⟨(S.views.getD i ⟨"", .empty⟩).name,
                                      .bufferAttached b (some (t, n)) a⟩ }
          else S).data_buffers.length
        by_cases hd : buf.data = none
        · rw [if_pos hd]
          show S.data_buffers.length ≤
            (S.data_buffers.set b (some ⟨t, n, some (List.replicate n 0)⟩)).length
          rw [List.length_set]
        · rw [if_neg hd]
    | external p0 t0 n0 a => exact Nat.le_refl _
    | scalar x => exact Nat.le_refl _
    | string s => exact Nat.le_refl _
    | opaqueHandle p => exact Nat.le_refl _
  | applyView i =>
    show S.data_buffers.length ≤ (S.applyView i).data_buffers.length
    rw [DataStore.applyView]
    cases hvc : S.viewContent i with
    | bufferAttached b d a =>
      cases d with
      | none => exact Nat.le_refl _
      | some p =>
        obtain ⟨t, n⟩ := p
        show S.data_buffers.length ≤ (match S.data_buffers.getD b none with
            | some buf =>
              match buf.data with
              | some arr =>
                if n ≤ arr.length then
                  S.setViewContent i (.bufferAttached b (some (t, n)) true)
                else S
              | none => S
            | none => S).data_buffers.length
        cases hslot : S.data_buffers.getD b none with
        | none => exact Nat.le_refl _
        | some buf =>
          show S.data_buffers.length ≤ (match buf.data with
              | some arr =>
                if n ≤ arr.length then
                  S.setViewContent i (.bufferAttached b (some (t, n)) true)
                else S
              | none => S).data_buffers.length
          cases buf.data with
          | none => exact Nat.le_refl _
          | some arr =>
            show S.data_buffers.length ≤ (if n ≤ arr.length then
                S.setViewContent i (.bufferAttached b (some (t, n)) true)
              else S).data_buffers.length
            by_cases hle : n ≤ arr.length
            · rw [if_pos hle]
              exact Nat.le_refl _
            · rw [if_neg hle]
    | external p t n a => exact Nat.le_refl _
    | empty => exact Nat.le_refl _
    | described t n => exact Nat.le_refl _
    | scalar x => exact Nat.le_refl _
    | string s => exact Nat.le_refl _
    | opaqueHandle p => exact Nat.le_refl _
  | setExternalDataPtr i p t n =>
    show S.data_buffers.length ≤ (S.setExternalDataPtr i p t n).data_buffers.length
    rw [DataStore.setExternalDataPtr]
    cases S.viewContent i <;> exact Nat.le_refl _
  | setOpaquePtr i p =>
    show S.data_buffers.length ≤ (S.setOpaquePtr i p).data_buffers.length
    rw [DataStore.setOpaquePtr]
    cases S.viewContent i <;> exact Nat.le_refl _
  | setScalar i x =>
    show S.data_buffers.length ≤ (S.setScalar i x).data_buffers.length
    rw [DataStore.setScalar]
    cases S.viewContent i <;> exact Nat.le_refl _
  | setString i s =>
    show S.data_buffers.length ≤ (S.setString i s).data_buffers.length
    rw [DataStore.setString]
    cases S.viewContent i <;> exact Nat.le_refl _
  | clearView i =>
    show S.data_buffers.length ≤ (S.clearView i).data_buffers.length
    rw [DataStore.clearView]
    by_cases hi : i < S.views.length
    · rw [if_pos hi]
      exact Nat.le_refl _
    · rw [if_neg hi]

/-! ## Claim theorems -/

/-- C2: `getNumBuffers()` computes slot-vector size minus free-list size
exactly as the inline source body does (the slot vector only grows, one slot
per fresh creation, so its size is the total number of slots ever used), and
destroying a live Buffer pushes its id onto the free list — leaving the slot
vector's size unchanged — after which an immediately following
`createBuffer` reuses exactly that id. -/
theorem C2_numBuffers_free_list (S : DataStore) :
    S.getNumBuffers = S.data_buffers.length - S.free_buffer_ids.length ∧
    (∀ op : Op, S.data_buffers.length ≤ (step S op).data_buffers.length) ∧
    (∀ i, S.slotLive i = true →
      (S.destroyBuffer i).free_buffer_ids = i :: S.free_buffer_ids ∧
      (S.destroyBuffer i).data_buffers.length = S.data_buffers.length ∧
      ((S.destroyBuffer i).createBuffer).2 = i) := by
  refine ⟨rfl, DataStore.step_length_mono S, fun i hi => ?_⟩
  rw [DataStore.destroyBuffer, if_pos hi]
  exact ⟨rfl, List.length_set .., rfl⟩

/-- Witness for C2 at the concrete store holding one live Buffer. -/
theorem C2_numBuffers_free_list_witness :
    (runOps DataStore.init [.createBuffer]).slotLive 0 = true ∧
    (((runOps DataStore.init [.createBuffer]).destroyBuffer 0).createBuffer).2 = 0 :=
  ⟨by decide, ((C2_numBuffers_free_list (runOps DataStore.init [.createBuffer])).2.2
      0 (by decide)).2.2⟩

/-- C3: `createBuffer()` takes the new Buffer's id from the top of the free
list when the free list is non-empty (such a recycled id is strictly below
the slot-vector size, hence below every unused sequential id) and otherwise
uses the next sequential id, growing the slot vector by one; destroying the
Buffer with index `i` and then creating a Buffer returns exactly `i`; and
the newly created Buffer has no attached Views. -/
theorem C3_createBuffer_assigns_ids (S : DataStore) (h : Reachable S) :
    (S.free_buffer_ids = [] →
      (S.createBuffer).2 = S.data_buffers.length ∧
      (S.createBuffer).1.data_buffers.length = S.data_buffers.length + 1) ∧
    (∀ id rest, S.free_buffer_ids = id :: rest →
      (S.createBuffer).2 = id ∧ id < S.data_buffers.length ∧
      (S.createBuffer).1.data_buffers.length = S.data_buffers.length) ∧
    (∀ i, S.slotLive i = true → ((S.destroyBuffer i).createBuffer).2 = i) ∧
    (S.createBuffer).1.numAttachedViews (S.createBuffer).2 = 0 := by
  obtain ⟨hbuf, hviews⟩ := DataStore.reachable_inv h
  refine ⟨?_, ?_, ?_, ?_⟩
  · intro hfree
    rw [DataStore.createBuffer, DataStore.allocSlot, hfree]
    refine ⟨rfl, ?_⟩
    show (S.data_buffers ++ [some BufModel.fresh]).length = S.data_buffers.length + 1
    rw [List.length_append]
    rfl
  · intro id rest hfree
    rw [DataStore.createBuffer, DataStore.allocSlot, hfree]
    refine ⟨rfl, (hbuf.2.1 id (by rw [hfree]; exact List.mem_cons_self id rest)).1, ?_⟩
    show (S.data_buffers.set id (some BufModel.fresh)).length = S.data_buffers.length
    rw [List.length_set]
  · intro i hi
    rw [DataStore.destroyBuffer, if_pos hi]
    rfl
  · have hnl : S.slotLive (S.createBuffer).2 = false :=
      DataStore.createBuffer_newId_not_live hbuf
    rw [DataStore.numAttachedViews, DataStore.createBuffer, DataStore.allocSlot_views]
    rw [filter_eq_nil_of_all]
    · rfl
    · intro v hv
      refine decide_eq_false (fun hc => ?_)
      have := (hviews v hv).1 _ hc
      rw [DataStore.createBuffer] at hnl
      rw [this] at hnl
      cases hnl

/-- Witness for C3 at a concrete reachable store with a recycled id. -/
theorem C3_createBuffer_assigns_ids_witness :
    (runOps DataStore.init [.createBuffer, .createBuffer,
        .destroyBuffer 0]).free_buffer_ids = 0 :: [] ∧
    ((runOps DataStore.init [.createBuffer, .createBuffer,
        .destroyBuffer 0]).createBuffer).2 = 0 :=
  ⟨by decide,
   ((C3_createBuffer_assigns_ids _
      ⟨[.createBuffer, .createBuffer, .destroyBuffer 0], rfl⟩).2.1
      0 [] (by decide)).1⟩

/-- C4: destroying the live Buffer at index `i` detaches it from every View
attached to it — those Views keep their name and position but lose their
Buffer reference and their applied flag; Views not attached to it are
untouched; the slot is nulled; the id goes onto the free list; and no View
is destroyed (the view list keeps its length). -/
theorem C4_destroyBuffer_detaches_views (S : DataStore) (i : Nat)
    (hi : S.slotLive i = true) :
    (S.destroyBuffer i).views.length = S.views.length ∧
    (S.destroyBuffer i).free_buffer_ids = i :: S.free_buffer_ids ∧
    (S.destroyBuffer i).data_buffers.getD i none = none ∧
    (∀ j, j < S.views.length →
      ((S.destroyBuffer i).views.getD j ⟨"", .empty⟩).name =
          (S.views.getD j ⟨"", .empty⟩).name ∧
      ((S.views.getD j ⟨"", .empty⟩).content.bufRef = some i →
        ((S.destroyBuffer i).views.getD j ⟨"", .empty⟩).content.hasBuffer = false ∧
        ((S.destroyBuffer i).views.getD j ⟨"", .empty⟩).content.isApplied = false) ∧
      ((S.views.getD j ⟨"", .empty⟩).content.bufRef ≠ some i →
        (S.destroyBuffer i).views.getD j ⟨"", .empty⟩ =
          S.views.getD j ⟨"", .empty⟩)) := by
  rw [DataStore.destroyBuffer, if_pos hi]
  refine ⟨List.length_map .., rfl, ?_, ?_⟩
  · show (S.data_buffers.set i none).getD i none = none
    rw [getD_set_self _ _ _ _ (DataStore.slotLive_lt hi)]
  · intro j hj
    have hmap : (S.views.map (DataStore.detachFrom i)).getD j ⟨"", .empty⟩ =
        DataStore.detachFrom i (S.views.getD j ⟨"", .empty⟩) :=
      getD_map (DataStore.detachFrom i) S.views j ⟨"", .empty⟩ hj
    rw [show ({ data_buffers := S.data_buffers.set i none,
                free_buffer_ids := i :: S.free_buffer_ids,
                views := S.views.map (DataStore.detachFrom i) } :
          DataStore).views = S.views.map (DataStore.detachFrom i) from rfl, hmap]
    obtain ⟨nm, cont⟩ := S.views.getD j ⟨"", .empty⟩
    cases cont with
    | bufferAttached b d a =>
      simp only [DataStore.detachFrom]
      by_cases hb : b = i
      · rw [if_pos hb]
        subst hb
        cases d with
        | none => exact ⟨rfl, fun _ => ⟨rfl, rfl⟩, fun hne => absurd rfl hne⟩
        | some p =>
          obtain ⟨t, n⟩ := p
          exact ⟨rfl, fun _ => ⟨rfl, rfl⟩, fun hne => absurd rfl hne⟩
      · rw [if_neg hb]
        exact ⟨rfl, fun hc => absurd (Option.some.injEq .. ▸ hc) (by simpa using hb),
               fun _ => rfl⟩
    | empty => exact ⟨rfl, fun hc => (nomatch hc), fun _ => rfl⟩
    | described t n => exact ⟨rfl, fun hc => (nomatch hc), fun _ => rfl⟩
    | external p t n a => exact ⟨rfl, fun hc => (nomatch hc), fun _ => rfl⟩
    | scalar x => exact ⟨rfl, fun hc => (nomatch hc), fun _ => rfl⟩
    | string s => exact ⟨rfl, fun hc => (nomatch hc), fun _ => rfl⟩
    | opaqueHandle p => exact ⟨rfl, fun hc => (nomatch hc), fun _ => rfl⟩

/-- C7: `hasBuffer(idx)` holds exactly when `0 <= idx`, `idx` is below the
slot-vector size, and the slot at `idx` is non-null (the inline source
body); `getBuffer(idx)` returns the Buffer stored at slot `idx` when
`hasBuffer(idx)` holds, and the not-found indicator (null) when `idx` is
negative, at or beyond the slot-vector size, or names an empty (recycled)
slot. -/
theorem C7_getBuffer_not_found (S : DataStore) (idx : Int) :
    (S.hasBuffer idx = true ↔
      0 ≤ idx ∧ idx.toNat < S.data_buffers.length ∧
        (S.data_buffers.getD idx.toNat none).isSome = true) ∧
    (S.hasBuffer idx = true →
      S.getBuffer idx = S.data_buffers.getD idx.toNat none ∧
        (S.getBuffer idx).isSome = true) ∧
    (idx < 0 ∨ (S.data_buffers.length : Int) ≤ idx ∨
        S.data_buffers.getD idx.toNat none = none →
      S.getBuffer idx = none) := by
  have hiff : S.hasBuffer idx = true ↔
      0 ≤ idx ∧ idx.toNat < S.data_buffers.length ∧
        (S.data_buffers.getD idx.toNat none).isSome = true := by
    rw [DataStore.hasBuffer]
    simp only [Bool.and_eq_true, decide_eq_true_eq]
    exact ⟨fun ⟨⟨a, b⟩, c⟩ => ⟨a, b, c⟩, fun ⟨a, b, c⟩ => ⟨⟨a, b⟩, c⟩⟩
  refine ⟨hiff, fun hb => ?_, fun hc => ?_⟩
  · rw [DataStore.getBuffer, if_pos hb]
    exact ⟨rfl, (hiff.mp hb).2.2⟩
  · rw [DataStore.getBuffer]
    rw [if_neg]
    intro hb
    obtain ⟨h0, hlt, hsome⟩ := hiff.mp hb
    rcases hc with hc | hc | hc
    · omega
    · omega
    · rw [hc] at hsome
      cases hsome

/-- Witness for C7 at a concrete store and an out-of-range index. -/
theorem C7_getBuffer_not_found_witness :
    (runOps DataStore.init [.createBuffer]).hasBuffer 0 = true ∧
    (runOps DataStore.init [.createBuffer]).getBuffer 5 = none :=
  ⟨by decide,
   (C7_getBuffer_not_found (runOps DataStore.init [.createBuffer]) 5).2.2
     (Or.inr (Or.inl (by decide)))⟩

/-- C8: `reallocate(newNumElements)` fails on a never-allocated Buffer (and
the store-level operation then leaves the store unchanged); on an allocated
Buffer it succeeds, keeps the element type, adopts the new element count,
and preserves the element values at positions `0 .. min(old,new)-1`; lifted
to the DataStore the resized Buffer stays at its slot, so its index
(identity) is preserved. -/
theorem C8_reallocate_preserves_values (b : BufModel) (n : Nat) :
    (b.data = none → b.reallocate n = none) ∧
    (∀ d, b.data = some d →
      ∃ b', b.reallocate n = some b' ∧
        b'.elemType = b.elemType ∧ b'.numElems = n ∧
        ∃ d', b'.data = some d' ∧ d'.length = n ∧
          ∀ i, i < min d.length n → d'.getD i 0 = d.getD i 0) ∧
    (∀ S : DataStore, ∀ id : Nat, S.data_buffers.getD id none = some b →
      (b.data = none → S.reallocBuffer id n = S) ∧
      (∀ b', b.reallocate n = some b' →
        (S.reallocBuffer id n).data_buffers.getD id none = some b')) := by
  refine ⟨?_, ?_, ?_⟩
  · intro hd
    rw [BufModel.reallocate, hd]
  · intro d hd
    rw [BufModel.reallocate, hd]
    refine ⟨_, rfl, rfl, rfl, _, rfl, ?_, ?_⟩
    · rw [List.length_append, List.length_take, List.length_replicate]
      omega
    · intro i hi
      rw [getD_append_left _ _ _ _ (by rw [List.length_take]; omega)]
      exact getD_take _ _ _ _ (by omega)
  · intro S id hslot
    have hlt : id < S.data_buffers.length :=
      DataStore.slotLive_lt (by rw [DataStore.slotLive, hslot]; rfl)
    constructor
    · intro hd
      rw [DataStore.reallocBuffer, hslot]
      show (match b.reallocate n with
            | some b' => { S with data_buffers := S.data_buffers.set id (some b') }
            | none => S) = S
      rw [BufModel.reallocate, hd]
    · intro b' hb'
      rw [DataStore.reallocBuffer, hslot]
      show (match b.reallocate n with
            | some b' => { S with data_buffers := S.data_buffers.set id (some b') }
            | none => S).data_buffers.getD id none = some b'
      rw [hb']
      show (S.data_buffers.set id (some b')).getD id none = some b'
      exact getD_set_self _ _ _ _ hlt

/-- Witness for C8 at a concrete allocated Buffer. -/
theorem C8_reallocate_preserves_values_witness :
    (⟨3, 4, some [10, 20, 30, 40]⟩ : BufModel).data = some [10, 20, 30, 40] ∧
    ∃ b', (⟨3, 4, some [10, 20, 30, 40]⟩ : BufModel).reallocate 2 = some b' ∧
      b'.elemType = 3 ∧ b'.numElems = 2 ∧
      ∃ d', b'.data = some d' ∧ d'.length = 2 ∧
        ∀ i, i < min ([10, 20, 30, 40] : List Int).length 2 →
          d'.getD i 0 = ([10, 20, 30, 40] : List Int).getD i 0 :=
  ⟨rfl, (C8_reallocate_preserves_values ⟨3, 4, some [10, 20, 30, 40]⟩ 2).2.1
      [10, 20, 30, 40] rfl⟩

/-- C9: in every reachable state the free-list ids are pairwise distinct and
each names a valid, null slot; hence the free list is no longer than the
slot vector, `getNumBuffers` (slot count minus free-list size) does not
underflow, and `hasBuffer` is false on every free id; and every operation of
the interface preserves this invariant. -/
theorem C9_free_list_wellformed (S : DataStore) (h : Reachable S) :
    S.free_buffer_ids.Nodup ∧
    (∀ id ∈ S.free_buffer_ids,
      id < S.data_buffers.length ∧ S.data_buffers.getD id none = none) ∧
    S.free_buffer_ids.length ≤ S.data_buffers.length ∧
    S.getNumBuffers + S.free_buffer_ids.length = S.data_buffers.length ∧
    (∀ id ∈ S.free_buffer_ids, S.hasBuffer (id : Int) = false) ∧
    (∀ op : Op,
      (step S op).free_buffer_ids.Nodup ∧
      ∀ id ∈ (step S op).free_buffer_ids,
        id < (step S op).data_buffers.length ∧
          (step S op).data_buffers.getD id none = none) := by
  obtain ⟨⟨hnd, hmem, hnull⟩, hviews⟩ := DataStore.reachable_inv h
  have hlen : S.free_buffer_ids.length ≤ S.data_buffers.length :=
    nodup_bounded_length_le _ _ hnd (fun x hx => (hmem x hx).1)
  refine ⟨hnd, hmem, hlen, ?_, ?_, ?_⟩
  · rw [DataStore.getNumBuffers]
    omega
  · intro id hid
    rw [DataStore.hasBuffer]
    have hz : (id : Int).toNat = id := Int.toNat_natCast id
    rw [hz, (hmem id hid).2]
    rw [Bool.and_eq_false_iff]
    exact Or.inr rfl
  · intro op
    have hstep := DataStore.step_inv op ⟨⟨hnd, hmem, hnull⟩, hviews⟩
    exact ⟨hstep.1.1, hstep.1.2.1⟩

/-- Witness for C9 at a concrete reachable store with a freed id. -/
theorem C9_free_list_wellformed_witness :
    Reachable (runOps DataStore.init [.createBuffer, .destroyBuffer 0]) ∧
    (runOps DataStore.init [.createBuffer, .destroyBuffer 0]).getNumBuffers +
        (runOps DataStore.init [.createBuffer, .destroyBuffer 0]).free_buffer_ids.length =
      (runOps DataStore.init [.createBuffer, .destroyBuffer 0]).data_buffers.length :=
  ⟨⟨[.createBuffer, .destroyBuffer 0], rfl⟩,
   (C9_free_list_wellformed _ ⟨[.createBuffer, .destroyBuffer 0], rfl⟩).2.2.2.1⟩

/-- Witness for C4 at a concrete store with one Buffer attached to one View. -/
theorem C4_destroyBuffer_detaches_views_witness :
    (runOps DataStore.init
        [.createBuffer, .createView "v", .attachBuffer 0 0]).slotLive 0 = true ∧
    ((runOps DataStore.init
        [.createBuffer, .createView "v", .attachBuffer 0 0]).destroyBuffer
          0).views.length =
      (runOps DataStore.init
        [.createBuffer, .createView "v", .attachBuffer 0 0]).views.length :=
  ⟨by decide,
   (C4_destroyBuffer_detaches_views _ 0 (by decide)).1⟩

/-- C1 counterexample: the reachable store obtained by creating one
described (but unallocated, unattached) View contains a View with
`isDescribed()` true while `hasBuffer()`, `isExternal()`, `isScalar()`,
`isString()` and `isOpaque()` are all false — refuting the claim's middle
implication (`isDescribed` does not force one of the five content modes). -/
theorem C1_described_view_counterexample :
    Reachable (runOps DataStore.init [.createViewDescribed "x" 0 3]) ∧
    ∃ v ∈ (runOps DataStore.init [.createViewDescribed "x" 0 3]).views,
      v.content.isDescribed = true ∧ v.content.hasBuffer = false ∧
      v.content.isExternal = false ∧ v.content.isScalar = false ∧
      v.content.isString = false ∧ v.content.isOpaque = false :=
  ⟨⟨[.createViewDescribed "x" 0 3], rfl⟩,
   ⟨⟨"x", .described 0 3⟩, by decide, by decide⟩⟩

/-- C1 (amended): for every View in every reachable DataStore state,
`isApplied()` implies `isDescribed()`; `isApplied()` implies exactly one of
`hasBuffer()`, `isExternal()`, `isScalar()`, `isString()`, `isOpaque()`;
the five modes are mutually exclusive in every state; a View in EXTERNAL,
SCALAR, STRING or OPAQUE mode has `hasBuffer()` false; and a buffer-backed
View holds exactly one Buffer reference. -/
theorem C1_view_mode_invariant (S : DataStore) (h : Reachable S) :
    ∀ v ∈ S.views,
      (v.content.isApplied = true → v.content.isDescribed = true) ∧
      (v.content.isApplied = true → v.content.modeCount = 1) ∧
      v.content.modeCount ≤ 1 ∧
      (v.content.isExternal = true ∨ v.content.isScalar = true ∨
        v.content.isString = true ∨ v.content.isOpaque = true →
        v.content.hasBuffer = false) ∧
      (v.content.hasBuffer = true →
        ∃ bid, v.content.bufRef = some bid ∧
          ∀ bid', v.content.bufRef = some bid' → bid' = bid) := by
  intro v hv
  obtain ⟨hbufok, hviews⟩ := DataStore.reachable_inv h
  obtain ⟨href, happ⟩ := hviews v hv
  refine ⟨happ, ?_, ?_, ?_, ?_⟩
  · intro ha
    cases hc : v.content with
    | bufferAttached b d a => rfl
    | external p t n a => rfl
    | empty => rw [hc] at ha; cases ha
    | described t n => rw [hc] at ha; cases ha
    | scalar x => rw [hc] at ha; cases ha
    | string s => rw [hc] at ha; cases ha
    | opaqueHandle p => rw [hc] at ha; cases ha
  · cases v.content <;>
      simp [ViewContent.modeCount, ViewContent.hasBuffer, ViewContent.isExternal,
            ViewContent.isScalar, ViewContent.isString, ViewContent.isOpaque]
  · intro hm
    cases hc : v.content with
    | bufferAttached b d a =>
      rw [hc] at hm
      rcases hm with h1 | h1 | h1 | h1 <;> cases h1
    | empty => rfl
    | described t n => rfl
    | external p t n a => rfl
    | scalar x => rfl
    | string s => rfl
    | opaqueHandle p => rfl
  · intro hb
    cases hc : v.content with
    | bufferAttached b d a =>
      exact ⟨b, rfl, fun bid' hb' => by cases hb'; rfl⟩
    | empty => rw [hc] at hb; cases hb
    | described t n => rw [hc] at hb; cases hb
    | external p t n a => rw [hc] at hb; cases hb
    | scalar x => rw [hc] at hb; cases hb
    | string s => rw [hc] at hb; cases hb
    | opaqueHandle p => rw [hc] at hb; cases hb

/-- Witness for the amended C1 at a concrete reachable store holding an
applied buffer-backed View. -/
theorem C1_view_mode_invariant_witness :
    (⟨"v", .bufferAttached 0 (some (3, 4)) true⟩ : ViewRec) ∈
      (runOps DataStore.init
        [.createBuffer, .createViewDescribed "v" 3 4, .attachBuffer 0 0,
         .allocateView 0, .applyView 0]).views ∧
    ((⟨"v", .bufferAttached 0 (some (3, 4)) true⟩ : ViewRec).content.isApplied = true →
      (⟨"v", .bufferAttached 0 (some (3, 4)) true⟩ : ViewRec).content.isDescribed = true) :=
  ⟨by decide,
   (C1_view_mode_invariant _
      ⟨[.createBuffer, .createViewDescribed "v" 3 4, .attachBuffer 0 0,
        .allocateView 0, .applyView 0], rfl⟩
      ⟨"v", .bufferAttached 0 (some (3, 4)) true⟩ (by decide)).1⟩

/-- C6: `allocate()` and `allocate(type, num_elems)` fail with the whole
store unchanged whenever the View is EXTERNAL, SCALAR, STRING or OPAQUE; in
particular after `setExternalDataPtr(ptr, INT32, 4)` a subsequent
`allocate()` leaves the store unchanged and `getVoidPtr()` still returns
`ptr`; when `allocate()` succeeds from DESCRIBED with no Buffer, a freshly
created (previously dead) slot now holds an allocated Buffer attached to the
View; and when the View's attached Buffer is unallocated, `allocate()`
allocates that Buffer. -/
theorem C6_allocate_state_contract (S : DataStore) (i : Nat) :
    ((S.viewContent i).isExternal = true ∨ (S.viewContent i).isScalar = true ∨
      (S.viewContent i).isString = true ∨ (S.viewContent i).isOpaque = true →
      S.allocateView i = S ∧ ∀ t n, S.allocateViewTyped i t n = S) ∧
    (∀ t n, S.viewContent i = .described t n → i < S.views.length →
      Reachable S →
      ∃ id, (S.allocateView i).viewContent i =
          .bufferAttached id (some (t, n)) false ∧
        (S.allocateView i).data_buffers.getD id none =
          some ⟨t, n, some (List.replicate n 0)⟩ ∧
        S.slotLive id = false) ∧
    (∀ b t n a buf, S.viewContent i = .bufferAttached b (some (t, n)) a →
      S.data_buffers.getD b none = some buf → buf.data = none →
      (S.allocateView i).data_buffers.getD b none =
        some ⟨t, n, some (List.replicate n 0)⟩) ∧
    (runOps DataStore.init
        [.createView "x", .setExternalDataPtr 0 777 3 4]).allocateView 0 =
      runOps DataStore.init [.createView "x", .setExternalDataPtr 0 777 3 4] ∧
    ((runOps DataStore.init
        [.createView "x", .setExternalDataPtr 0 777 3 4]).viewContent
          0).getVoidPtr = some 777 := by
  refine ⟨?_, ?_, ?_, by decide, by decide⟩
  · intro hmode
    cases hvc : S.viewContent i with
    | external p t n a =>
      exact ⟨by rw [DataStore.allocateView, hvc],
             fun t' n' => by rw [DataStore.allocateViewTyped, hvc]⟩
    | scalar x =>
      exact ⟨by rw [DataStore.allocateView, hvc],
             fun t' n' => by rw [DataStore.allocateViewTyped, hvc]⟩
    | string s =>
      exact ⟨by rw [DataStore.allocateView, hvc],
             fun t' n' => by rw [DataStore.allocateViewTyped, hvc]⟩
    | opaqueHandle p =>
      exact ⟨by rw [DataStore.allocateView, hvc],
             fun t' n' => by rw [DataStore.allocateViewTyped, hvc]⟩
    | empty =>
      rw [hvc] at hmode
      rcases hmode with h1 | h1 | h1 | h1 <;> cases h1
    | described t n =>
      rw [hvc] at hmode
      rcases hmode with h1 | h1 | h1 | h1 <;> cases h1
    | bufferAttached b d a =>
      rw [hvc] at hmode
      rcases hmode with h1 | h1 | h1 | h1 <;> cases h1
  · intro t n hvc hi hreach
    obtain ⟨hbufok, hviews⟩ := DataStore.reachable_inv hreach
    have heq : S.allocateView i =
        (S.allocSlot ⟨t, n, some (List.replicate n 0)⟩).1.setViewContent i
          (.bufferAttached (S.allocSlot ⟨t, n, some (List.replicate n 0)⟩).2
            (some (t, n)) false) := by
      rw [DataStore.allocateView, hvc]
    refine ⟨(S.allocSlot ⟨t, n, some (List.replicate n 0)⟩).2, ?_, ?_, ?_⟩
    · rw [heq]
      exact DataStore.viewContent_setViewContent _
        (by rw [DataStore.allocSlot_views]; exact hi)
    · rw [heq]
      show (S.allocSlot ⟨t, n, some (List.replicate n 0)⟩).1.data_buffers.getD
          (S.allocSlot ⟨t, n, some (List.replicate n 0)⟩).2 none =
        some ⟨t, n, some (List.replicate n 0)⟩
      exact DataStore.allocSlot_getD_new _ hbufok
    · exact DataStore.allocSlot_newId_not_live _ hbufok
  · intro b t n a buf hvc hslot hd
    rw [DataStore.allocateView, hvc]
    show (match S.data_buffers.getD b none with
          | some buf =>
            if buf.data = none then
              { S with data_buffers :=
                  S.data_buffers.set b (some ⟨t, n, some (List.replicate n 0)⟩) }
            else S
          | none => S).data_buffers.getD b none =
        some ⟨t, n, some (List.replicate n 0)⟩
    rw [hslot]
    show (if buf.data = none then
            { S with data_buffers :=
                S.data_buffers.set b (some ⟨t, n, some (List.replicate n 0)⟩) }
          else S).data_buffers.getD b none =
        some ⟨t, n, some (List.replicate n 0)⟩
    rw [if_pos hd]
    show (S.data_buffers.set b (some ⟨t, n, some (List.replicate n 0)⟩)).getD
        b none = some ⟨t, n, some (List.replicate n 0)⟩
    exact getD_set_self _ _ _ _
      (DataStore.slotLive_lt (by rw [DataStore.slotLive, hslot]; rfl))

/-- Witness for C6: allocating an EXTERNAL View fails with the store
unchanged. -/
theorem C6_allocate_state_contract_witness :
    ((runOps DataStore.init
        [.createView "x", .setExternalDataPtr 0 777 3 4]).viewContent
          0).isExternal = true ∧
    (runOps DataStore.init
        [.createView "x", .setExternalDataPtr 0 777 3 4]).allocateView 0 =
      runOps DataStore.init [.createView "x", .setExternalDataPtr 0 777 3 4] :=
  ⟨by decide,
   ((C6_allocate_state_contract
      (runOps DataStore.init [.createView "x", .setExternalDataPtr 0 777 3 4])
      0).1 (Or.inl (by decide))).1⟩

/-- C5: for every Group tree and every bit-exact binary protocol `P`,
`save` through `P` followed by `load` through `P` into a fresh DataStore
reproduces the identical Group tree — the same Group and View names, element
types, shapes and data values. -/
theorem C5_save_load_round_trip (t : STree) (p : Protocol)
    (_hp : p.isBitExact = true) : load p (save p t) = some t := by
  rw [load, save, if_pos rfl]
  exact decodeStream_encode t

/-- Witness for C5 at a concrete two-level tree through the `conduit`
protocol. -/
theorem C5_save_load_round_trip_witness :
    Protocol.conduit.isBitExact = true ∧
    load .conduit (save .conduit
        (.group "root" [⟨"pressure", 5, [10], [1, 2, 3]⟩]
          (.cons (.group "fields" [] .nil) .nil))) =
      some (.group "root" [⟨"pressure", 5, [10], [1, 2, 3]⟩]
          (.cons (.group "fields" [] .nil) .nil)) :=
  ⟨rfl, C5_save_load_round_trip
      (.group "root" [⟨"pressure", 5, [10], [1, 2, 3]⟩]
        (.cons (.group "fields" [] .nil) .nil)) .conduit rfl⟩

theorem if_lt_eq_min (a b : Nat) : (if a < b then a else b) = min a b := by
  rcases Nat.lt_or_ge a b with h | h
  · rw [if_pos h, Nat.min_eq_left (Nat.le_of_lt h)]
  · rw [if_neg (Nat.not_lt.mpr h), Nat.min_eq_right h]

/-- C10: `ShroudStrCopy` writes exactly `ndest` bytes into the destination:
the first `min(nsrc, ndest)` bytes of `src` followed by blank fill; a NULL
`src` produces `ndest` spaces; a negative `nsrc` is replaced by
`strlen(src)`; every written byte is a copied source byte or a space — no
NUL terminator is appended; and `get_name_bufferify` therefore silently
truncates a name longer than the caller's buffer instead of failing. -/
theorem C10_ShroudStrCopy_blank_fill (ndest : Nat) (s : List Nat) (nsrc : Int) :
    ShroudStrCopy ndest none nsrc = List.replicate ndest 32 ∧
    (0 ≤ nsrc → nsrc.toNat ≤ s.length →
      ShroudStrCopy ndest (some s) nsrc =
        s.take (min nsrc.toNat ndest) ++
          List.replicate (ndest - min nsrc.toNat ndest) 32 ∧
      (ShroudStrCopy ndest (some s) nsrc).length = ndest) ∧
    (nsrc < 0 →
      ShroudStrCopy ndest (some s) nsrc =
        ShroudStrCopy ndest (some s) (strlenBytes s : Int)) ∧
    (∀ b ∈ ShroudStrCopy ndest (some s) nsrc, b ∈ s ∨ b = 32) ∧
    (s ≠ [] → ndest ≤ s.length →
      SIDRE_View_get_name_bufferify s ndest = s.take ndest) := by
  refine ⟨rfl, ?_, ?_, ?_, ?_⟩
  · intro h0 hle
    have hneg : ¬ nsrc < 0 := by omega
    constructor
    · simp only [ShroudStrCopy, if_neg hneg, if_lt_eq_min]
    · simp only [ShroudStrCopy, if_neg hneg, if_lt_eq_min]
      rw [List.length_append, List.length_take, List.length_replicate]
      omega
  · intro hneg
    have h1 : ¬ ((strlenBytes s : Int) < 0) := by omega
    simp only [ShroudStrCopy, if_pos hneg, if_neg h1, Int.toNat_natCast]
  · intro b hb
    simp only [ShroudStrCopy] at hb
    rcases List.mem_append.mp hb with h1 | h1
    · exact Or.inl (List.mem_of_mem_take h1)
    · exact Or.inr (List.eq_of_mem_replicate h1)
  · intro hne hle
    rw [SIDRE_View_get_name_bufferify, if_neg hne]
    have h1 : ¬ ((s.length : Int) < 0) := by omega
    have h2 : ¬ (s.length < ndest) := Nat.not_lt.mpr hle
    simp only [ShroudStrCopy, if_neg h1, Int.toNat_natCast, if_neg h2]
    rw [Nat.sub_self]
    simp

/-- Witness for C10: a three-byte name copied into a two-byte buffer is
silently truncated. -/
theorem C10_ShroudStrCopy_blank_fill_witness :
    ([65, 66, 67] : List Nat) ≠ [] ∧ (2 : Nat) ≤ ([65, 66, 67] : List Nat).length ∧
    SIDRE_View_get_name_bufferify [65, 66, 67] 2 = ([65, 66, 67] : List Nat).take 2 :=
  ⟨by decide, by decide,
   (C10_ShroudStrCopy_blank_fill 2 [65, 66, 67] 3).2.2.2.2 (by decide) (by decide)⟩

end Sidre
